import Mathlib

/-!
# go-common: the `logs` package and the work queue

A shallow embedding of `logs/log.go` and `logs/manager.go`, with the parts of the
process the code reads and writes (the backend list of the logging library, standard
output, the clock, the file system) carried in an explicit `World`, and the functions of
other packages (`utils`, go-logging, `os`, `yaml`) taken as the fields of an `Env`.

Go values that may be `nil` (interface values, pointers) are `Option`s; a run that
panics ends in `Except.error`.
-/

namespace logs

/-- The pattern used for rendering the logs (`loggingPattern`). -/
def loggingPattern : String :=
  " %{time:15:04:05.000} [%{module}] %{color}▶ %{level:.10s}%{color:reset} %{message}"

/-- A Go value travelling as `interface{}`: what a configuration map holds and what the
logging methods are handed. -/
inductive Value where
  | nil
  | bool (b : Bool)
  | str (s : String)
  | int (i : Int)
  | err (msg : String)
  deriving DecidableEq, Repr

/-- A Go `error` value, by its message. -/
abbrev GoError := String

/-- How a run ends when it does not return: a runtime panic, or `os.Exit`. -/
inductive Abort where
  | typeAssertion (key : String)
  | nilDereference
  | exit (code : Nat)
  deriving DecidableEq, Repr

/-- A `map[string]interface{}`: the value stored under each key, if any. -/
abbrev GoMap := String → Option Value

/-- The empty map. -/
def GoMap.empty : GoMap := fun _ => none

/-- The map `m` with `key` set to `v`. -/
def GoMap.set (m : GoMap) (key : String) (v : Value) : GoMap :=
  fun k => if k = key then some v else m k

/-- The map `m` with `key` deleted. -/
def GoMap.delete (m : GoMap) (key : String) : GoMap :=
  fun k => if k = key then none else m k

/-- The struct `config` of `log.go`; a fresh `config{}` has every field at its zero value. -/
structure config where
  Level : String := ""
  StdOut : Bool := false
  Syslog : Bool := false
  Prefix : String := ""
  deriving DecidableEq, Repr

/-- The type assertion `v.(bool)`: panics unless `v` holds a bool. -/
def assertBool (key : String) : Value → Except Abort Bool
  | .bool b => .ok b
  | _ => .error (.typeAssertion key)

/-- The type assertion `v.(string)`: panics unless `v` holds a string. -/
def assertString (key : String) : Value → Except Abort String
  | .str s => .ok s
  | _ => .error (.typeAssertion key)

/-- The function `ConfigGetter` of `log.go`: each of the four keys is looked up in turn and,
when present, its value is type-asserted into the field. -/
def ConfigGetter (logConfig : GoMap) : Except Abort config := do
  let cfg : config := {}
  let cfg ← match logConfig "stdout" with
    | some v => do
      let b ← assertBool "stdout" v
      pure { cfg with StdOut := b }
    | none => pure cfg
  let cfg ← match logConfig "syslog" with
    | some v => do
      let b ← assertBool "syslog" v
      pure { cfg with Syslog := b }
    | none => pure cfg
  let cfg ← match logConfig "level" with
    | some v => do
      let s ← assertString "level" v
      pure { cfg with Level := s }
    | none => pure cfg
  let cfg ← match logConfig "prefix" with
    | some v => do
      let s ← assertString "prefix" v
      pure { cfg with Prefix := s }
    | none => pure cfg
  return cfg

/-- The map literal `NewLoggerWithConfig` builds from its four typed arguments. -/
def configMap (stdout syslog : Bool) (level pfx : String) : GoMap :=
  (((GoMap.empty.set "stdout" (.bool stdout)).set "syslog" (.bool syslog)).set
    "level" (.str level)).set "prefix" (.str pfx)

/-- A value is absent or a bool. -/
def isBoolOrAbsent : Option Value → Bool
  | none => true
  | some (.bool _) => true
  | some _ => false

/-- A value is absent or a string. -/
def isStringOrAbsent : Option Value → Bool
  | none => true
  | some (.str _) => true
  | some _ => false

/-- The map's values under the four recognised keys have the types `ConfigGetter` asserts. -/
def WellTyped (m : GoMap) : Prop :=
  isBoolOrAbsent (m "stdout") = true ∧ isBoolOrAbsent (m "syslog") = true ∧
  isStringOrAbsent (m "level") = true ∧ isStringOrAbsent (m "prefix") = true

instance (m : GoMap) : Decidable (WellTyped m) := by
  unfold WellTyped
  infer_instance

/-- The bool stored in an entry, `false` when the key is absent. -/
def boolField : Option Value → Bool
  | some (.bool b) => b
  | _ => false

/-- The string stored in an entry, the empty string when the key is absent. -/
def stringField : Option Value → String
  | some (.str s) => s
  | _ => ""

/-- The four recognised option names. -/
def recognisedKeys : List String := ["stdout", "syslog", "level", "prefix"]

/-- The config a map denotes: each field is the value under its key, or the zero value. -/
def configOf (m : GoMap) : config :=
  { Level := stringField (m "level"), StdOut := boolField (m "stdout"),
    Syslog := boolField (m "syslog"), Prefix := stringField (m "prefix") }

/-! ## The logging library's objects -/

/-- The levels of go-logging, most severe first. -/
inductive Level where
  | CRITICAL | ERROR | WARNING | NOTICE | INFO | DEBUG
  deriving DecidableEq, Repr

/-- An `io.Writer` handed to `NewLogger`, by identity. -/
structure Writer where
  id : Nat
  deriving DecidableEq, Repr

/-- Where a plain log backend writes: `os.Stdout` or a caller's writer. -/
inductive Sink where
  | stdout
  | writer (w : Writer)
  deriving DecidableEq, Repr

/-- A go-logging backend, by the constructor calls that built it. -/
inductive Backend where
  | log (out : Sink) (pfx : String) (flag : Nat)
  | syslog (pfx : String)
  | formatter (b : Backend) (format : String)
  | moduleLeveled (b : Backend) (levels : List (String × Level))
  deriving DecidableEq, Repr

/-- The call `logging.NewLogBackend(out, prefix, flag)`. -/
def NewLogBackend (out : Sink) (pfx : String) (flag : Nat) : Backend := .log out pfx flag

/-- The call `logging.MustStringFormatter(format)`; the only pattern it is given is the
constant `loggingPattern`, which the library accepts. -/
def MustStringFormatter (format : String) : String := format

/-- The call `logging.NewBackendFormatter(b, format)`. -/
def NewBackendFormatter (b : Backend) (format : String) : Backend := .formatter b format

/-- The call `logging.AddModuleLevel(b)`: a leveled wrapper with no level set yet. -/
def AddModuleLevel (b : Backend) : Backend := .moduleLeveled b []

/-- The method `SetLevel(level, module)` of a leveled backend. -/
def Backend.SetLevel (level : Level) (module : String) : Backend → Backend
  | .moduleLeveled b levels => .moduleLeveled b ((module, level) :: levels)
  | b => b

/-- A `*logging.Logger`: the library's logger carries only its module name. -/
structure LibLogger where
  Module : String
  deriving DecidableEq, Repr

/-- The call `logging.MustGetLogger(module)`; `GetLogger` never fails. -/
def MustGetLogger (module : String) : LibLogger := { Module := module }

/-! ## The package's own types -/

/-- The struct `internalLogger`: a wrapper of the library's logger. -/
structure internalLogger where
  logger : LibLogger
  deriving DecidableEq, Repr

/-- The struct `defaultLogger`; the field is `prefix` in the source. -/
structure defaultLogger where
  pfx : String
  deriving DecidableEq, Repr

/-- A non-nil value of the interface `Logger`: one of the package's two implementations.
A `Logger` variable, which may be nil, is an `Option Logger`. -/
inductive Logger where
  | ofInternal (l : internalLogger)
  | ofDefault (d : defaultLogger)
  deriving DecidableEq, Repr

/-- The struct `logConfig` of `manager.go`. -/
structure logConfig where
  Stdout : Bool := false
  Syslog : Bool := false
  Level : String := ""
  deriving DecidableEq, Repr

/-- The struct `LogManager`. `Prefixes` is a `map[string]*logConfig`: a key is absent
(`none`), or present with a pointer that may itself be nil (`some none`). -/
structure LogManager where
  Stdout : Bool := false
  Syslog : Bool := false
  Level : String := ""
  Prefixes : String → Option (Option logConfig) := fun _ => none
  logger : Option Logger := none

/-- A non-nil value of the interface `LogComponent`, by identity; `LogPrefix` is what its
method `LogPrefix()` returns, taken to be the same at every call. A `LogComponent`
variable, which may be nil, is an `Option LogComponent`. -/
structure LogComponent where
  id : Nat
  LogPrefix : String
  deriving DecidableEq, Repr

/-- What a run does that is visible outside it, in order. -/
inductive Event where
  | println (operands : List Value)
  | library (module : String) (level : Level) (args : List Value)
  | setLogger (component : LogComponent) (logger : Option Logger) (manager : LogManager)

/-- The process state the package reads and writes: the backends last handed to
`logging.SetBackend`, the events so far, and how many times the clock was read. -/
structure World where
  backends : List Backend := []
  events : List Event := []
  clock : Nat := 0

/-- What `os.Stat` reports about a path. -/
structure FileInfo where
  IsDir : Bool
  deriving DecidableEq, Repr

/-- The functions of other packages, each taken as a function of its arguments alone.
`LogLevel` (the level parser) and `NewSyslogBackend` (`some err` when the syslog backend
cannot be created) are go-logging's. `EmptyOrWhiteSpace` and `ToDatetimeString` belong to
the repository's package `utils`, whose source is not at hand; the latter stands for
`utils.ToDatetimeString(time.Now())` at the given clock reading. `Stat`, `OpenFile` and
`ReadAll` are of `os` and `ioutil`, and `Unmarshal` is `yaml.Unmarshal` decoding into the
given manager. -/
structure Env where
  EmptyOrWhiteSpace : String → Bool
  LogLevel : String → Except GoError Level
  NewSyslogBackend : String → Option GoError
  ToDatetimeString : Nat → String
  Stat : String → Except GoError FileInfo
  OpenFile : String → Except GoError Nat
  ReadAll : Nat → Except GoError (List Nat)
  Unmarshal : List Nat → LogManager → Except GoError LogManager

/-! ## log.go -/

/-- The call `logging.SetBackend(backend...)`: replaces the process-wide backend. -/
def SetBackend (backend : List Backend) (w : World) : World := { w with backends := backend }

/-- The second loop of `NewLogger`: every backend is wrapped in a formatter and a leveled
backend, and the level name is parsed once per backend; the first parse error ends the
function. -/
def levelLoop (env : Env) (level moduleName : String) :
    List Backend → Except GoError (List Backend)
  | [] => .ok []
  | b :: rest =>
    let format := MustStringFormatter loggingPattern
    let backendLeveled := AddModuleLevel (NewBackendFormatter b format)
    match env.LogLevel level with
    | .error err => .error err
    | .ok logLevel =>
      match levelLoop env level moduleName rest with
      | .error err => .error err
      | .ok rest' => .ok (backendLeveled.SetLevel logLevel moduleName :: rest')

/-- The first loop of `NewLogger`: one log backend per writer, appended in order. -/
def appendWriters (pfx : String) (backend : List Backend) (ws : List Writer) : List Backend :=
  ws.foldl (fun acc w => acc ++ [NewLogBackend (.writer w) pfx 0]) backend

/-- The function `NewLogger`. The result pair is Go's `(Logger, error)`. -/
def NewLogger (env : Env) (cfg : GoMap) (ws : List Writer) (w : World) :
    Except Abort ((Option Logger × Option GoError) × World) :=
  match ConfigGetter cfg with
  | .error a => .error a
  | .ok logConfig =>
    let moduleName :=
      if env.EmptyOrWhiteSpace logConfig.Prefix then "DEFAULT" else logConfig.Prefix
    let logger := MustGetLogger moduleName
    let backend : List Backend := []
    let backend :=
      if logConfig.StdOut then backend ++ [NewLogBackend .stdout logConfig.Prefix 0]
      else backend
    let backend := appendWriters logConfig.Prefix backend ws
    let withSyslog : Except GoError (List Backend) :=
      if logConfig.Syslog then
        match env.NewSyslogBackend logConfig.Prefix with
        | some err => .error err
        | none => .ok (backend ++ [Backend.syslog logConfig.Prefix])
      else .ok backend
    match withSyslog with
    | .error err => .ok ((none, some err), w)
    | .ok backend =>
      match levelLoop env logConfig.Level moduleName backend with
      | .error err => .ok ((none, some err), w)
      | .ok backend => .ok ((some (.ofInternal { logger := logger }), none), SetBackend backend w)

/-- The function `NewLoggerWithConfig`. -/
def NewLoggerWithConfig (env : Env) (stdout syslog : Bool) (level pfx : String)
    (ws : List Writer) (w : World) : Except Abort ((Option Logger × Option GoError) × World) :=
  NewLogger env (configMap stdout syslog level pfx) ws w

/-- A method of `internalLogger` that hands its arguments to the library's logger. -/
def internalLogger.log (l : internalLogger) (level : Level) (v : List Value) (w : World) :
    World :=
  { w with events := w.events ++ [.library l.logger.Module level v] }

/-- The method `internalLogger.Debug`. -/
def internalLogger.Debug (l : internalLogger) (v : List Value) (w : World) :
    Except Abort World := .ok (l.log .DEBUG v w)

/-- The method `internalLogger.Info`. -/
def internalLogger.Info (l : internalLogger) (v : List Value) (w : World) :
    Except Abort World := .ok (l.log .INFO v w)

/-- The method `internalLogger.Warning`. -/
def internalLogger.Warning (l : internalLogger) (v : List Value) (w : World) :
    Except Abort World := .ok (l.log .WARNING v w)

/-- The method `internalLogger.Error`. -/
def internalLogger.Error (l : internalLogger) (v : List Value) (w : World) :
    Except Abort World := .ok (l.log .ERROR v w)

/-- The method `internalLogger.Critical`. -/
def internalLogger.Critical (l : internalLogger) (v : List Value) (w : World) :
    Except Abort World := .ok (l.log .CRITICAL v w)

/-- The method `internalLogger.Fatal`: the library logs at CRITICAL and calls `os.Exit(1)`. -/
def internalLogger.Fatal (_l : internalLogger) (_v : List Value) (_w : World) :
    Except Abort World := .error (.exit 1)

/-- The function `CreateDefaultLogger`: a pointer to a fresh `defaultLogger`. -/
def CreateDefaultLogger (pfx : String) : Option Logger := some (.ofDefault { pfx := pfx })

/-- The method `defaultLogger.print`: the header is
`fmt.Sprintf("%s [%s]\t", utils.ToDatetimeString(time.Now()), d.prefix)` and the operands
of the one `fmt.Println` call are the header, the level, `" "` and then `v`. -/
def defaultLogger.print (env : Env) (d : defaultLogger) (level : String) (v : List Value)
    (w : World) : World :=
  let header := env.ToDatetimeString w.clock ++ " [" ++ d.pfx ++ "]\t"
  { w with
    clock := w.clock + 1
    events := w.events ++ [.println (([.str header, .str level, .str " "] ++ []) ++ v)] }

/-- The method `defaultLogger.Debug`. -/
def defaultLogger.Debug (env : Env) (d : defaultLogger) (v : List Value) (w : World) : World :=
  d.print env "DEBUG" v w

/-- The method `defaultLogger.Info`. -/
def defaultLogger.Info (env : Env) (d : defaultLogger) (v : List Value) (w : World) : World :=
  d.print env "INFO" v w

/-- The method `defaultLogger.Warning`. -/
def defaultLogger.Warning (env : Env) (d : defaultLogger) (v : List Value) (w : World) : World :=
  d.print env "WARNING" v w

/-- The method `defaultLogger.Error`. -/
def defaultLogger.Error (env : Env) (d : defaultLogger) (v : List Value) (w : World) : World :=
  d.print env "ERROR" v w

/-- The method `defaultLogger.Critical`. -/
def defaultLogger.Critical (env : Env) (d : defaultLogger) (v : List Value) (w : World) : World :=
  d.print env "CRITICAL" v w

/-- The method `defaultLogger.Fatal`. -/
def defaultLogger.Fatal (env : Env) (d : defaultLogger) (v : List Value) (w : World) : World :=
  d.print env "FATAL" v w

/-- A call `l.Debug(v...)` on a `Logger` variable: a nil interface panics, otherwise the
method of the value it holds runs. -/
def Logger.Debug (env : Env) (l : Option Logger) (v : List Value) (w : World) :
    Except Abort World :=
  match l with
  | none => .error .nilDereference
  | some (.ofInternal i) => i.Debug v w
  | some (.ofDefault d) => .ok (d.Debug env v w)

/-- A call `l.Info(v...)` on a `Logger` variable. -/
def Logger.Info (env : Env) (l : Option Logger) (v : List Value) (w : World) :
    Except Abort World :=
  match l with
  | none => .error .nilDereference
  | some (.ofInternal i) => i.Info v w
  | some (.ofDefault d) => .ok (d.Info env v w)

/-- A call `l.Warning(v...)` on a `Logger` variable. -/
def Logger.Warning (env : Env) (l : Option Logger) (v : List Value) (w : World) :
    Except Abort World :=
  match l with
  | none => .error .nilDereference
  | some (.ofInternal i) => i.Warning v w
  | some (.ofDefault d) => .ok (d.Warning env v w)

/-- A call `l.Error(v...)` on a `Logger` variable. -/
def Logger.Error (env : Env) (l : Option Logger) (v : List Value) (w : World) :
    Except Abort World :=
  match l with
  | none => .error .nilDereference
  | some (.ofInternal i) => i.Error v w
  | some (.ofDefault d) => .ok (d.Error env v w)

/-- A call `l.Critical(v...)` on a `Logger` variable. -/
def Logger.Critical (env : Env) (l : Option Logger) (v : List Value) (w : World) :
    Except Abort World :=
  match l with
  | none => .error .nilDereference
  | some (.ofInternal i) => i.Critical v w
  | some (.ofDefault d) => .ok (d.Critical env v w)

/-- A call `l.Fatal(v...)` on a `Logger` variable. -/
def Logger.Fatal (env : Env) (l : Option Logger) (v : List Value) (w : World) :
    Except Abort World :=
  match l with
  | none => .error .nilDereference
  | some (.ofInternal i) => i.Fatal v w
  | some (.ofDefault d) => .ok (d.Fatal env v w)

/-! ## manager.go -/

/-- The function `readConfig`; the result pair is Go's `(*LogManager, error)`. -/
def readConfig (env : Env) (configPath : String) : Option LogManager × Option GoError :=
  match env.Stat configPath with
  | .error err => (none, some err)
  | .ok fileInfo =>
    if fileInfo.IsDir then (none, some "FILE_NOT_EXISTS")
    else
      match env.OpenFile configPath with
      | .error err => (none, some err)
      | .ok file =>
        match env.ReadAll file with
        | .error err => (none, some err)
        | .ok bytes =>
          let manager : LogManager := {}
          match env.Unmarshal bytes manager with
          | .error err => (none, some err)
          | .ok manager => (some manager, none)

/-- The manager `CreateManager` returns when the configuration cannot be read, before
its logger is set. -/
def defaultManager : LogManager :=
  { Stdout := true, Syslog := false, Level := "DEBUG", Prefixes := fun _ => none }

/-- The function `CreateManager`; the result is Go's `*LogManager`. -/
def CreateManager (env : Env) (configPath : String) (w : World) :
    Except Abort (Option LogManager × World) :=
  let logger := CreateDefaultLogger "LOG-MANAGER"
  match readConfig env configPath with
  | (_, some err) =>
    match Logger.Error env logger
        [.str "Initialize log manager failed with error:", .err err, .str "use default logger"]
        w with
    | .error a => .error a
    | .ok w1 => .ok (some { defaultManager with logger := logger }, w1)
  | (manager, none) =>
    match manager with
    | none => .error .nilDereference
    | some manager => .ok (some { manager with logger := logger }, w)

/-- The call `component.SetLogger(logger, manager)`: the component is outside the package,
so the call is recorded with the arguments it receives. -/
def SetLogger (component : LogComponent) (logger : Option Logger) (manager : LogManager)
    (w : World) : World :=
  { w with events := w.events ++ [.setLogger component logger manager] }

/-- The tail of the loop body of `InitializeComponents`: the warning, the DEBUG logger built
with its error dropped, and `SetLogger`. -/
def useDefault (env : Env) (m : LogManager) (component : LogComponent) (w : World) :
    Except Abort World :=
  match Logger.Warning env m.logger
      [.str "Use default debug level log for component with prefix:",
       .str component.LogPrefix] w with
  | .error a => .error a
  | .ok w1 =>
    match NewLoggerWithConfig env true false "DEBUG" component.LogPrefix [] w1 with
    | .error a => .error a
    | .ok ((logger, _), w2) => .ok (SetLogger component logger m w2)

/-- The loop body of `InitializeComponents`, for one non-nil component. -/
def initializeComponent (env : Env) (m : LogManager) (component : LogComponent) (w : World) :
    Except Abort World :=
  match m.Prefixes component.LogPrefix with
  | some ptr =>
    match ptr with
    | none => .error .nilDereference
    | some config =>
      match NewLoggerWithConfig env config.Stdout config.Syslog config.Level
          component.LogPrefix [] w with
      | .error a => .error a
      | .ok ((logger, none), w1) =>
        match Logger.Info env m.logger
            [.str "Set logger for prefix:", .str component.LogPrefix] w1 with
        | .error a => .error a
        | .ok w2 => .ok (SetLogger component logger m w2)
      | .ok ((_, some err), w1) =>
        match Logger.Error env m.logger
            [.str "Initialize logger to component with prefix:", .str component.LogPrefix,
             .str "failed with error:", .err err] w1 with
        | .error a => .error a
        | .ok w2 => useDefault env m component w2
  | none => useDefault env m component w

/-- The method `LogManager.InitializeComponents`. The first thing the loop body does is
call `component.LogPrefix()`, which panics on a nil interface value. -/
def InitializeComponents (env : Env) (m : LogManager) :
    List (Option LogComponent) → World → Except Abort World
  | [], w => .ok w
  | none :: _, _ => .error .nilDereference
  | some component :: rest, w =>
    match initializeComponent env m component w with
    | .error a => .error a
    | .ok w1 => InitializeComponents env m rest w1

/-! ## Notions the properties are stated with -/

/-- The module name `NewLogger` gives the library's logger for a prefix. -/
def moduleNameOf (env : Env) (pfx : String) : String :=
  if env.EmptyOrWhiteSpace pfx then "DEFAULT" else pfx

/-- The backends a configuration and a writer list select, described directly: a stdout
backend if `stdout` is true, then one backend per writer in order, then a syslog backend
if `syslog` is true. -/
def selectedBackends (c : config) (ws : List Writer) : List Backend :=
  (if c.StdOut then [Backend.log .stdout c.Prefix 0] else [])
    ++ ws.map (fun w => Backend.log (.writer w) c.Prefix 0)
    ++ (if c.Syslog then [Backend.syslog c.Prefix] else [])

/-- A backend as it is installed: formatted with `loggingPattern` and leveled for the
module. -/
def installed (module : String) (level : Level) (b : Backend) : Backend :=
  .moduleLeveled (.formatter b loggingPattern) [(module, level)]

/-- The configuration selects at least one backend. -/
def selectsBackend (c : config) (ws : List Writer) : Bool :=
  c.StdOut || c.Syslog || !ws.isEmpty

/-- The pair `NewLoggerWithConfig` returns for these arguments and no writer; it does not
depend on the world the call starts in. -/
def constructed (env : Env) (stdout syslog : Bool) (level pfx : String) :
    Except Abort (Option Logger × Option GoError) :=
  (NewLoggerWithConfig env stdout syslog level pfx [] {}).map Prod.fst

/-- The logger the last lines of the loop body hand to `SetLogger`: what
`NewLoggerWithConfig(true, false, "DEBUG", prefix)` returns, its error dropped. -/
def fallbackLogger (env : Env) (pfx : String) : Option Logger :=
  match constructed env true false "DEBUG" pfx with
  | .ok (l, _) => l
  | .error _ => none

/-- The logger a component is to receive from a manager: the one built from the entry of
its prefix when there is an entry and the construction returns no error, and the DEBUG
logger otherwise. -/
def expectedLogger (env : Env) (m : LogManager) (c : LogComponent) : Option Logger :=
  match m.Prefixes c.LogPrefix with
  | some (some config) =>
    match constructed env config.Stdout config.Syslog config.Level c.LogPrefix with
    | .ok (l, none) => l
    | _ => fallbackLogger env c.LogPrefix
  | _ => fallbackLogger env c.LogPrefix

/-- The `SetLogger` calls of a trace, in order: the component and the logger it received. -/
def setLoggerCalls : List Event → List (LogComponent × Option Logger)
  | [] => []
  | .setLogger component logger _ :: rest => (component, logger) :: setLoggerCalls rest
  | _ :: rest => setLoggerCalls rest

/-- A sample environment: the level parser knows the six upper-case level names, syslog is
reachable except for the prefix `"nosyslog"`, and the one file `"log.yaml"` parses to a
manager with an entry for `"web"` and a nil entry for `"db"`. -/
def sampleEnv : Env where
  EmptyOrWhiteSpace := fun s => s.data.all (fun ch => ch = ' ' || ch = '\t' || ch = '\n')
  LogLevel := fun s =>
    if s = "CRITICAL" then .ok .CRITICAL
    else if s = "ERROR" then .ok .ERROR
    else if s = "WARNING" then .ok .WARNING
    else if s = "NOTICE" then .ok .NOTICE
    else if s = "INFO" then .ok .INFO
    else if s = "DEBUG" then .ok .DEBUG
    else .error "logger: invalid log level"
  NewSyslogBackend := fun pfx => if pfx = "nosyslog" then some "dial failed" else none
  ToDatetimeString := fun _ => "2020-01-02 03:04:05"
  Stat := fun path =>
    if path = "log.yaml" then .ok { IsDir := false }
    else if path = "conf" then .ok { IsDir := true }
    else .error "stat: no such file or directory"
  OpenFile := fun path => if path = "log.yaml" then .ok 3 else .error "open: permission denied"
  ReadAll := fun _ => .ok [115, 116, 100, 111, 117, 116]
  Unmarshal := fun _ m =>
    .ok { m with
          Stdout := true
          Level := "INFO"
          Prefixes := fun k =>
            if k = "web" then some (some { Stdout := true, Syslog := false, Level := "ERROR" })
            else if k = "db" then some none
            else none }

/-- The manager `CreateManager` returns for `"log.yaml"` in the sample environment. -/
def sampleManager : LogManager :=
  { Stdout := true
    Syslog := false
    Level := "INFO"
    Prefixes := fun k =>
      if k = "web" then some (some { Stdout := true, Syslog := false, Level := "ERROR" })
      else if k = "db" then some none
      else none
    logger := some (.ofDefault { pfx := "LOG-MANAGER" }) }

end logs

/-! ## The work queue

The package `workqueue` is called by the smoke test but its source is not part of the
repository's files at hand, so the queue below follows the specification's description
of it: a sequential state machine whose steps are the submissions, the workers' moves
and the shutdown calls, in any interleaving. -/

namespace workqueue

/-- Modelled from the spec: the queue's state, `Open` (accepting submissions), `Draining`
(no new submissions, existing items still processed) or `Closed` (terminal); the package
`workqueue` is missing from the sources. -/
inductive QueueState where
  | Open | Draining | Closed
  deriving DecidableEq, Repr

/-- Modelled from the spec: the error kinds of section 7; the package `workqueue` is
missing from the sources. -/
inductive QueueError where
  | InvalidConfiguration | QueueClosed | Timeout | Cancelled | WorkerPanic
  deriving DecidableEq, Repr

/-- Modelled from the spec: the per-item outcome `Success(value)` or `Failure(error)`;
the package `workqueue` is missing from the sources. -/
inductive Result where
  | Success (value : String)
  | Failure (error : QueueError)
  deriving DecidableEq, Repr

/-- Modelled from the spec: an item's work function, by what running it does: it returns a
value (`some`) or raises a fault (`none`), and it may or may not honour a cancellation
signal; the package `workqueue` is missing from the sources. -/
structure Work where
  outcome : Option String
  honoursCancel : Bool
  deriving DecidableEq, Repr

/-- Modelled from the spec: a work item with its sequence id (assigned at submission), its
payload and its enqueue timestamp; the package `workqueue` is missing from the sources. -/
structure WorkItem where
  seq : Nat
  work : Work
  enqueuedAt : Nat
  deriving DecidableEq, Repr

/-- Modelled from the spec: the queue, with its configured sizes, its state, the bounded
FIFO buffer of pending items, the items the workers are executing, the results delivered
so far (by sequence id, in delivery order) and the next sequence id; the package
`workqueue` is missing from the sources. -/
structure WorkQueue where
  workerCount : Nat
  bufferCapacity : Nat
  state : QueueState
  pending : List WorkItem
  inFlight : List WorkItem
  results : List (Nat × Result)
  nextSeq : Nat
  deriving DecidableEq, Repr

/-- Modelled from the spec: `New(workerCount int, bufferCapacity int)`, where
`workerCount` must be at least 1 and `bufferCapacity` at least 0, and invalid parameters
are reported synchronously as `InvalidConfiguration`; the package `workqueue` is missing
from the sources. -/
def New (workerCount bufferCapacity : Int) : Except QueueError WorkQueue :=
  if workerCount < 1 ∨ bufferCapacity < 0 then .error .InvalidConfiguration
  else .ok
    { workerCount := workerCount.toNat
      bufferCapacity := bufferCapacity.toNat
      state := .Open
      pending := []
      inFlight := []
      results := []
      nextSeq := 0 }

/-- Modelled from the spec: how a call of `Submit` ends: the item was taken and given a
sequence id, the caller stays suspended on a full buffer, or the call fails with an
error; the package `workqueue` is missing from the sources. -/
inductive SubmitOutcome where
  | accepted (seq : Nat)
  | suspended
  | failed (error : QueueError)
  deriving DecidableEq, Repr

/-- Modelled from the spec: `Submit`. In `Draining` or `Closed` it fails at once with
`QueueClosed`. In `Open` the item is given the next sequence id and enqueued when the
buffer has room (with capacity 0, handed to an idle worker); on a full buffer the caller
is suspended, or gets `Timeout` once its deadline has passed, the queue unaltered. The
package `workqueue` is missing from the sources. -/
def Submit (q : WorkQueue) (work : Work) (now : Nat) (deadlinePassed : Bool) :
    SubmitOutcome × WorkQueue :=
  match q.state with
  | .Draining => (.failed .QueueClosed, q)
  | .Closed => (.failed .QueueClosed, q)
  | .Open =>
    let item : WorkItem := { seq := q.nextSeq, work := work, enqueuedAt := now }
    if q.pending.length < q.bufferCapacity then
      (.accepted q.nextSeq, { q with pending := q.pending ++ [item], nextSeq := q.nextSeq + 1 })
    else if q.bufferCapacity = 0 ∧ q.inFlight.length < q.workerCount then
      (.accepted q.nextSeq, { q with inFlight := q.inFlight ++ [item], nextSeq := q.nextSeq + 1 })
    else if deadlinePassed then (.failed .Timeout, q)
    else (.suspended, q)

/-- Modelled from the spec: step (b) of the worker loop, executing the item's work function
with a fault captured as a `Failure`; the package `workqueue` is missing from the
sources. -/
def execute (item : WorkItem) : Result :=
  match item.work.outcome with
  | some value => .Success value
  | none => .Failure .WorkerPanic

/-- Modelled from the spec: step (a) of the worker loop, an idle worker claiming the oldest
pending item; the package `workqueue` is missing from the sources. -/
def workerTake (q : WorkQueue) : WorkQueue :=
  match q.pending with
  | [] => q
  | item :: rest =>
    if q.inFlight.length < q.workerCount then
      { q with pending := rest, inFlight := q.inFlight ++ [item] }
    else q

/-- Modelled from the spec: steps (b) and (c) of the worker loop, the worker holding the
item with this sequence id finishing it and delivering its result; the package
`workqueue` is missing from the sources. -/
def workerFinish (q : WorkQueue) (seq : Nat) : WorkQueue :=
  match q.inFlight.find? (fun item => item.seq = seq) with
  | none => q
  | some item =>
    { q with inFlight := q.inFlight.erase item
             results := q.results ++ [(item.seq, execute item)] }

/-- Modelled from the spec: the first effect of `Close()`, `Open → Draining`, a no-op on a
queue already draining or closed; the package `workqueue` is missing from the sources. -/
def closeBegin (q : WorkQueue) : WorkQueue :=
  match q.state with
  | .Open => { q with state := .Draining }
  | _ => q

/-- Modelled from the spec: `Draining → Closed`, once the pending buffer is empty and all
in-flight items have finished; the package `workqueue` is missing from the sources. -/
def drainComplete (q : WorkQueue) : WorkQueue :=
  match q.state, q.pending, q.inFlight with
  | .Draining, [], [] => { q with state := .Closed }
  | _, _, _ => q

/-- Modelled from the spec: the result an item in flight gets at a forced shutdown:
`Failure(Cancelled)` when its work honours the signal, its own result otherwise; the
package `workqueue` is missing from the sources. -/
def cancelInFlight (item : WorkItem) : Result :=
  if item.work.honoursCancel then .Failure .Cancelled else execute item

/-- Modelled from the spec: `CloseNow()`, which marks every pending item
`Failure(Cancelled)`, cancels the items in flight and goes to `Closed`; the package
`workqueue` is missing from the sources. -/
def CloseNow (q : WorkQueue) : WorkQueue :=
  match q.state with
  | .Closed => q
  | _ =>
    { q with
      state := .Closed
      results := q.results ++ q.inFlight.map (fun item => (item.seq, cancelInFlight item))
        ++ q.pending.map (fun item => (item.seq, Result.Failure .Cancelled))
      pending := []
      inFlight := [] }

/-- Modelled from the spec: the workers running on after `Close()` has begun, until nothing
is pending or in flight, which is when the queue closes: each round the first item in
flight is finished, or else the oldest pending item is claimed; the package `workqueue`
is missing from the sources. -/
def drainLoop : Nat → WorkQueue → WorkQueue
  | 0, q => q
  | fuel + 1, q =>
    match q.inFlight with
    | item :: _ => drainLoop fuel (workerFinish q item.seq)
    | [] =>
      match q.pending with
      | _ :: _ => drainLoop fuel (workerTake q)
      | [] => drainComplete q

/-- Modelled from the spec: `Close()`, which goes to `Draining`, waits for the workers to
empty the buffer and finish what is in flight, and then goes to `Closed`; the package
`workqueue` is missing from the sources. -/
def Close (q : WorkQueue) : WorkQueue :=
  drainLoop (2 * q.pending.length + q.inFlight.length + 1) (closeBegin q)

/-- Modelled from the spec: `Len()`, the number of pending items; the package `workqueue`
is missing from the sources. -/
def Len (q : WorkQueue) : Nat := q.pending.length

/-- Modelled from the spec: one move of the queue's environment: a producer submitting, a
worker claiming or finishing an item, or a shutdown call; the package `workqueue` is
missing from the sources. -/
inductive Action where
  | submit (work : Work) (now : Nat) (deadlinePassed : Bool)
  | workerTake
  | workerFinish (seq : Nat)
  | close
  | drainComplete
  | closeNow
  deriving DecidableEq, Repr

/-- Modelled from the spec: the queue after one move; the package `workqueue` is missing
from the sources. -/
def step (q : WorkQueue) : Action → WorkQueue
  | .submit work now deadlinePassed => (Submit q work now deadlinePassed).2
  | .workerTake => workerTake q
  | .workerFinish seq => workerFinish q seq
  | .close => closeBegin q
  | .drainComplete => drainComplete q
  | .closeNow => CloseNow q

/-- Modelled from the spec: the queue after a sequence of moves; the package `workqueue`
is missing from the sources. -/
def run (q : WorkQueue) (actions : List Action) : WorkQueue := actions.foldl step q

/-- The sequence ids of the items the queue still holds, pending or in flight. -/
def heldIds (q : WorkQueue) : List Nat :=
  q.pending.map (fun item => item.seq) ++ q.inFlight.map (fun item => item.seq)

/-- The sequence ids of the results delivered so far. -/
def resultIds (q : WorkQueue) : List Nat := q.results.map (fun r => r.1)

/-- The queue's books balance: every sequence id given out so far is held by the queue or
has a result, exactly once over both, and no other id appears; there is at least one
worker; and a closed queue holds nothing. -/
def Accounted (q : WorkQueue) : Prop :=
  (∀ id : Nat, (heldIds q ++ resultIds q).count id = if id < q.nextSeq then 1 else 0) ∧
  1 ≤ q.workerCount ∧
  (q.state = .Closed → q.pending = [] ∧ q.inFlight = [])

end workqueue

/-! ## The smoke test -/

namespace go_common

/-- An argument of a call in the smoke test: a string literal or `time.Now()`. -/
inductive TestArg where
  | str (s : String)
  | timeNow
  deriving DecidableEq, Repr

/-- The smoke test `TestAll` of `all_test.go`: the three calls it makes, in order, each
with the arguments it passes. -/
def TestAll : List (String × List TestArg) :=
  [("logs.CreateDefaultLogger", [.str "tester"]),
   ("utils.ToDatetimeStringWithoutDash", [.timeNow]),
   ("workqueue.New", [])]

end go_common

/-! # Theorems: the `logs` package -/

namespace logs

theorem ConfigGetter_of_wellTyped (m : GoMap) (h : WellTyped m) :
    ConfigGetter m = .ok { Level := stringField (m "level"), StdOut := boolField (m "stdout"),
                           Syslog := boolField (m "syslog"), Prefix := stringField (m "prefix") } := by
  obtain ⟨h1, h2, h3, h4⟩ := h
  unfold ConfigGetter
  rcases e1 : m "stdout" with _ | v1 <;> rcases e2 : m "syslog" with _ | v2 <;>
    rcases e3 : m "level" with _ | v3 <;> rcases e4 : m "prefix" with _ | v4 <;>
    rw [e1] at h1 <;> rw [e2] at h2 <;> rw [e3] at h3 <;> rw [e4] at h4 <;>
    (try cases v1) <;> (try cases v2) <;> (try cases v3) <;> (try cases v4) <;>
    simp_all [isBoolOrAbsent, isStringOrAbsent, boolField, stringField, assertBool,
      assertString, bind, Except.bind, pure, Except.pure]

theorem ConfigGetter_congr (m m' : GoMap) (h : ∀ k ∈ recognisedKeys, m' k = m k) :
    ConfigGetter m' = ConfigGetter m := by
  have h1 : m' "stdout" = m "stdout" := h _ (by simp [recognisedKeys])
  have h2 : m' "syslog" = m "syslog" := h _ (by simp [recognisedKeys])
  have h3 : m' "level" = m "level" := h _ (by simp [recognisedKeys])
  have h4 : m' "prefix" = m "prefix" := h _ (by simp [recognisedKeys])
  unfold ConfigGetter
  rw [h1, h2, h3, h4]

theorem ConfigGetter_configMap (stdout syslog : Bool) (level pfx : String) :
    ConfigGetter (configMap stdout syslog level pfx)
      = .ok { Level := level, StdOut := stdout, Syslog := syslog, Prefix := pfx } := by
  have h := ConfigGetter_of_wellTyped (configMap stdout syslog level pfx)
    (by simp [WellTyped, configMap, GoMap.set, GoMap.empty, isBoolOrAbsent, isStringOrAbsent])
  rw [h]
  simp [configMap, GoMap.set, GoMap.empty, boolField, stringField]

/-- C1: for every configuration map whose values under "stdout" and "syslog" are booleans
and under "level" and "prefix" are strings, `ConfigGetter` returns (without panicking) the
config whose `StdOut`, `Syslog`, `Level` and `Prefix` are the map's values under "stdout",
"syslog", "level" and "prefix" when the key is present, and `false` / the empty string when
it is absent. Only these four keys are read: any map that agrees with it on the four keys
gives the same result, in particular the map with any other key set to any value or
deleted. -/
theorem C1_ConfigGetter_reads_exactly_the_four_options (m : GoMap) (h : WellTyped m) :
    ConfigGetter m = .ok { Level := stringField (m "level"), StdOut := boolField (m "stdout"),
                           Syslog := boolField (m "syslog"), Prefix := stringField (m "prefix") }
    ∧ (∀ m' : GoMap, (∀ k ∈ recognisedKeys, m' k = m k) → ConfigGetter m' = ConfigGetter m)
    ∧ (∀ (key : String) (v : Value), key ∉ recognisedKeys →
        ConfigGetter (m.set key v) = ConfigGetter m)
    ∧ (∀ key : String, key ∉ recognisedKeys → ConfigGetter (m.delete key) = ConfigGetter m) := by
  refine ⟨ConfigGetter_of_wellTyped m h, fun m' hm => ConfigGetter_congr m m' hm, ?_, ?_⟩
  · intro key v hk
    apply ConfigGetter_congr
    intro k hkr
    have : k ≠ key := fun e => hk (e ▸ hkr)
    simp [GoMap.set, this]
  · intro key hk
    apply ConfigGetter_congr
    intro k hkr
    have : k ≠ key := fun e => hk (e ▸ hkr)
    simp [GoMap.delete, this]

/-- Witness of C1 on the map `{"stdout": true, "level": "INFO", "color": 7}`. -/
theorem C1_witness :
    WellTyped (((GoMap.empty.set "stdout" (.bool true)).set "level" (.str "INFO")).set
        "color" (.int 7))
    ∧ ConfigGetter (((GoMap.empty.set "stdout" (.bool true)).set "level" (.str "INFO")).set
        "color" (.int 7))
      = .ok { Level := "INFO", StdOut := true, Syslog := false, Prefix := "" } := by
  have hw : WellTyped (((GoMap.empty.set "stdout" (.bool true)).set "level" (.str "INFO")).set
        "color" (.int 7)) := by
    simp [WellTyped, GoMap.set, GoMap.empty, isBoolOrAbsent, isStringOrAbsent]
  refine ⟨hw, ?_⟩
  rw [(C1_ConfigGetter_reads_exactly_the_four_options _ hw).1]
  simp [GoMap.set, GoMap.empty, boolField, stringField]

/-- C3: for every prefix, `CreateDefaultLogger` returns a non-nil `Logger` holding a
`defaultLogger` whose prefix is the one given; each of its six methods returns without
panicking and makes exactly one `Println` call, whose operands are, in order, the header
`"<datetime> [<prefix>]\t"`, the method's upper-case level name, the string `" "` and then
the caller's values in their order; the one line is the only event, whatever the level. -/
theorem C3_CreateDefaultLogger_prints_every_level (env : Env) (pfx : String) :
    ∃ d : defaultLogger, CreateDefaultLogger pfx = some (.ofDefault d) ∧ d.pfx = pfx ∧
      ∀ (v : List Value) (w : World),
        let line : String → Event := fun name =>
          .println ([.str (env.ToDatetimeString w.clock ++ " [" ++ pfx ++ "]\t"),
                     .str name, .str " "] ++ v)
        let after : String → World := fun name =>
          { backends := w.backends, clock := w.clock + 1, events := w.events ++ [line name] }
        Logger.Debug env (CreateDefaultLogger pfx) v w = .ok (after "DEBUG") ∧
        Logger.Info env (CreateDefaultLogger pfx) v w = .ok (after "INFO") ∧
        Logger.Warning env (CreateDefaultLogger pfx) v w = .ok (after "WARNING") ∧
        Logger.Error env (CreateDefaultLogger pfx) v w = .ok (after "ERROR") ∧
        Logger.Critical env (CreateDefaultLogger pfx) v w = .ok (after "CRITICAL") ∧
        Logger.Fatal env (CreateDefaultLogger pfx) v w = .ok (after "FATAL") := by
  refine ⟨{ pfx := pfx }, rfl, rfl, ?_⟩
  intro v w
  refine ⟨?_, ?_, ?_, ?_, ?_, ?_⟩ <;>
    simp [CreateDefaultLogger, Logger.Debug, Logger.Info, Logger.Warning, Logger.Error,
      Logger.Critical, Logger.Fatal, defaultLogger.Debug, defaultLogger.Info,
      defaultLogger.Warning, defaultLogger.Error, defaultLogger.Critical, defaultLogger.Fatal,
      defaultLogger.print]

/-! ## `NewLogger` -/

theorem appendWriters_eq (pfx : String) (ws : List Writer) (backend : List Backend) :
    appendWriters pfx backend ws
      = backend ++ ws.map (fun w => Backend.log (.writer w) pfx 0) := by
  unfold appendWriters
  simp only [NewLogBackend]
  induction ws generalizing backend with
  | nil => simp
  | cons w ws ih => rw [List.foldl_cons, ih]; simp

theorem levelLoop_ok (env : Env) (level moduleName : String) (l : Level)
    (h : env.LogLevel level = .ok l) (bs : List Backend) :
    levelLoop env level moduleName bs = .ok (bs.map (installed moduleName l)) := by
  induction bs with
  | nil => rfl
  | cons b bs ih =>
    simp [levelLoop, h, ih, installed, AddModuleLevel, NewBackendFormatter,
      MustStringFormatter, Backend.SetLevel]

theorem levelLoop_error (env : Env) (level moduleName : String) (e : GoError)
    (h : env.LogLevel level = .error e) (bs : List Backend) (hne : bs ≠ []) :
    levelLoop env level moduleName bs = .error e := by
  cases bs with
  | nil => exact absurd rfl hne
  | cons b bs => simp [levelLoop, h]

theorem selectedBackends_eq_nil (c : config) (ws : List Writer) :
    selectedBackends c ws = [] ↔ selectsBackend c ws = false := by
  cases ws <;> cases hs : c.StdOut <;> cases hy : c.Syslog <;>
    simp [selectedBackends, selectsBackend, hs, hy]

/-- The function `NewLogger` on a map `ConfigGetter` accepts, by what it selects. -/
theorem NewLogger_eq (env : Env) (cfg : GoMap) (c : config) (h : ConfigGetter cfg = .ok c)
    (ws : List Writer) (w : World) :
    NewLogger env cfg ws w =
      match (if c.Syslog then env.NewSyslogBackend c.Prefix else none) with
      | some err => .ok ((none, some err), w)
      | none =>
        match levelLoop env c.Level (moduleNameOf env c.Prefix) (selectedBackends c ws) with
        | .error err => .ok ((none, some err), w)
        | .ok backend =>
          .ok ((some (.ofInternal { logger := { Module := moduleNameOf env c.Prefix } }), none),
               { w with backends := backend }) := by
  unfold NewLogger
  rw [h]
  simp only [appendWriters_eq, selectedBackends, moduleNameOf, NewLogBackend, MustGetLogger,
    SetBackend, List.nil_append]
  cases hs : c.StdOut <;> cases hy : c.Syslog <;>
    cases hd : env.NewSyslogBackend c.Prefix <;> simp

theorem NewLogger_returns_only_if_typed (env : Env) (cfg : GoMap) (ws : List Writer)
    (w w' : World) (r : Option Logger × Option GoError)
    (h : NewLogger env cfg ws w = .ok (r, w')) : ∃ c, ConfigGetter cfg = .ok c := by
  cases hc : ConfigGetter cfg with
  | error a => simp [NewLogger, hc] at h
  | ok c => exact ⟨c, rfl⟩

/-- C4: after every successful call `NewLogger(cfg, ws...)` the process-wide backend list is
exactly the list built for this call: the backends the configuration selects (a stdout
backend if `stdout` is true, then one backend per writer in order, then a syslog backend
if `syslog` is true), each formatted and leveled for the logger's module. The backends
installed before the call play no part: started from any other world the call succeeds
with the same logger and installs the same list, so a later call replaces the backends of
the loggers created before it. Nothing else of the world changes. -/
theorem C4_NewLogger_replaces_the_process_backends (env : Env) (cfg : GoMap)
    (ws : List Writer) (w w' : World) (l : Option Logger)
    (h : NewLogger env cfg ws w = .ok ((l, none), w')) :
    ∃ (c : config) (lvl : Level), ConfigGetter cfg = .ok c ∧
      l = some (.ofInternal { logger := { Module := moduleNameOf env c.Prefix } }) ∧
      w'.backends = (selectedBackends c ws).map (installed (moduleNameOf env c.Prefix) lvl) ∧
      (selectedBackends c ws ≠ [] → env.LogLevel c.Level = .ok lvl) ∧
      w'.events = w.events ∧ w'.clock = w.clock ∧
      ∀ u : World, NewLogger env cfg ws u = .ok ((l, none), { u with backends := w'.backends }) := by
  obtain ⟨c, hc⟩ := NewLogger_returns_only_if_typed env cfg ws w w' _ h
  have hu := fun u => NewLogger_eq env cfg c hc ws u
  rw [hu w] at h
  cases hd : (if c.Syslog then env.NewSyslogBackend c.Prefix else none) with
  | some err => simp [hd] at h
  | none =>
    simp only [hd] at h hu
    cases hl : env.LogLevel c.Level with
    | ok lvl =>
      have hloop := levelLoop_ok env c.Level (moduleNameOf env c.Prefix) lvl hl
        (selectedBackends c ws)
      simp only [hloop] at h hu
      simp only [Except.ok.injEq, Prod.mk.injEq, and_true] at h
      obtain ⟨h1, h2⟩ := h
      subst h1 h2
      exact ⟨c, lvl, hc, rfl, rfl, fun _ => hl, rfl, rfl, fun u => by rw [hu u]⟩
    | error e =>
      by_cases hsel : selectedBackends c ws = []
      · simp only [hsel, levelLoop] at h hu
        simp only [Except.ok.injEq, Prod.mk.injEq, and_true] at h
        obtain ⟨h1, h2⟩ := h
        subst h1 h2
        exact ⟨c, .DEBUG, hc, rfl, by simp [hsel], fun hne => absurd hsel hne, rfl, rfl,
          fun u => by rw [hu u]⟩
      · have hloop := levelLoop_error env c.Level (moduleNameOf env c.Prefix) e hl
          (selectedBackends c ws) hsel
        simp [hloop] at h

/-- Witness of C4: with stdout and one writer selected at level INFO for the prefix "web",
over a world that already holds a syslog backend. -/
theorem C4_witness :
    NewLogger sampleEnv (configMap true false "INFO" "web") [{ id := 1 }]
        { backends := [Backend.syslog "old"] }
      = .ok ((some (.ofInternal { logger := { Module := "web" } }), none),
             { backends := [installed "web" .INFO (.log .stdout "web" 0),
                            installed "web" .INFO (.log (.writer { id := 1 }) "web" 0)] })
    ∧ ∃ (c : config) (lvl : Level),
        ConfigGetter (configMap true false "INFO" "web") = .ok c ∧
        some (Logger.ofInternal { logger := { Module := "web" } })
          = some (.ofInternal { logger := { Module := moduleNameOf sampleEnv c.Prefix } }) ∧
        [installed "web" .INFO (.log .stdout "web" 0),
         installed "web" .INFO (.log (.writer { id := 1 }) "web" 0)]
          = (selectedBackends c [{ id := 1 }]).map
              (installed (moduleNameOf sampleEnv c.Prefix) lvl) ∧
        (selectedBackends c [{ id := 1 }] ≠ [] → sampleEnv.LogLevel c.Level = .ok lvl) ∧
        ([] : List Event) = [] ∧ (0 : Nat) = 0 ∧
        ∀ u : World, NewLogger sampleEnv (configMap true false "INFO" "web") [{ id := 1 }] u
          = .ok ((some (.ofInternal { logger := { Module := "web" } }), none),
                 { u with backends := [installed "web" .INFO (.log .stdout "web" 0),
                     installed "web" .INFO (.log (.writer { id := 1 }) "web" 0)] }) :=
  ⟨by rfl,
   C4_NewLogger_replaces_the_process_backends sampleEnv (configMap true false "INFO" "web")
     [{ id := 1 }] { backends := [Backend.syslog "old"] }
     { backends := [installed "web" .INFO (.log .stdout "web" 0),
                    installed "web" .INFO (.log (.writer { id := 1 }) "web" 0)] }
     (some (.ofInternal { logger := { Module := "web" } })) (by rfl)⟩

theorem ConfigGetter_eq_configOf (m : GoMap) (h : WellTyped m) :
    ConfigGetter m = .ok (configOf m) := ConfigGetter_of_wellTyped m h

/-- Every error return of `NewLogger` hands back a nil logger and the world it was given. -/
theorem NewLogger_error_frame (env : Env) (cfg : GoMap) (ws : List Writer) (w w' : World)
    (l : Option Logger) (e : GoError) (h : NewLogger env cfg ws w = .ok ((l, some e), w')) :
    l = none ∧ w' = w := by
  obtain ⟨c, hc⟩ := NewLogger_returns_only_if_typed env cfg ws w w' _ h
  rw [NewLogger_eq env cfg c hc ws w] at h
  cases hd : (if c.Syslog then env.NewSyslogBackend c.Prefix else none) with
  | some err =>
    simp only [hd, Except.ok.injEq, Prod.mk.injEq] at h
    exact ⟨h.1.1.symm, h.2.symm⟩
  | none =>
    simp only [hd] at h
    cases hl : levelLoop env c.Level (moduleNameOf env c.Prefix) (selectedBackends c ws) with
    | error err =>
      simp only [hl, Except.ok.injEq, Prod.mk.injEq] at h
      exact ⟨h.1.1.symm, h.2.symm⟩
    | ok bs => simp [hl] at h

/-- C9, as amended: for every configuration map whose values under the four recognised
keys have their types, `NewLogger` returns, and, syslog backend creation succeeding, it
returns an error exactly when at least one backend is selected (stdout true, syslog true,
or a writer given) and the level parser rejects the level string; otherwise it returns
its logger and no error, so a configuration selecting no backend gets a logger whatever
its level string. For every map, an error return hands back a nil logger and leaves the
world, the process-wide backend list included, as it was. -/
theorem C9_NewLogger_checks_the_level_per_backend (env : Env) (cfg : GoMap)
    (ws : List Writer) (w : World) :
    (WellTyped cfg →
      ((configOf cfg).Syslog = true → env.NewSyslogBackend (configOf cfg).Prefix = none) →
      (∃ r w', NewLogger env cfg ws w = .ok (r, w')) ∧
      ((∃ e, NewLogger env cfg ws w = .ok ((none, some e), w)) ↔
        (selectsBackend (configOf cfg) ws = true ∧
          ∃ e, env.LogLevel (configOf cfg).Level = .error e)) ∧
      (¬ (selectsBackend (configOf cfg) ws = true ∧
            ∃ e, env.LogLevel (configOf cfg).Level = .error e) →
        ∃ w', NewLogger env cfg ws w =
          .ok ((some (.ofInternal
                  { logger := { Module := moduleNameOf env (configOf cfg).Prefix } }), none),
               w')) ∧
      (selectsBackend (configOf cfg) ws = false →
        NewLogger env cfg ws w =
          .ok ((some (.ofInternal
                  { logger := { Module := moduleNameOf env (configOf cfg).Prefix } }), none),
               { w with backends := [] })))
    ∧ (∀ (l : Option Logger) (e : GoError) (w' : World),
        NewLogger env cfg ws w = .ok ((l, some e), w') → l = none ∧ w' = w) := by
  refine ⟨?_, fun l e w' h => NewLogger_error_frame env cfg ws w w' l e h⟩
  intro hw hsys
  have heq := NewLogger_eq env cfg (configOf cfg) (ConfigGetter_eq_configOf cfg hw) ws w
  have hd : (if (configOf cfg).Syslog then env.NewSyslogBackend (configOf cfg).Prefix
      else none) = none := by
    cases hy : (configOf cfg).Syslog with
    | false => simp
    | true => simp [hsys hy]
  simp only [hd] at heq
  by_cases hsel : selectsBackend (configOf cfg) ws = true
  · have hne : selectedBackends (configOf cfg) ws ≠ [] := by
      intro h0
      rw [selectedBackends_eq_nil] at h0
      rw [h0] at hsel
      exact absurd hsel (by decide)
    cases hl : env.LogLevel (configOf cfg).Level with
    | ok lvl =>
      rw [levelLoop_ok env _ _ lvl hl] at heq
      simp only at heq
      rw [heq]
      refine ⟨⟨_, _, rfl⟩, ?_, fun _ => ⟨_, rfl⟩, fun h0 => ?_⟩
      · simp
      · rw [h0] at hsel; exact absurd hsel (by decide)
    | error e =>
      rw [levelLoop_error env _ _ e hl _ hne] at heq
      simp only at heq
      rw [heq]
      refine ⟨⟨_, _, rfl⟩, ?_, fun hn => absurd ⟨hsel, e, rfl⟩ hn, fun h0 => ?_⟩
      · simp [hsel]
      · rw [h0] at hsel; exact absurd hsel (by decide)
  · have hsel' : selectsBackend (configOf cfg) ws = false := by
      cases hb : selectsBackend (configOf cfg) ws with
      | false => rfl
      | true => exact absurd hb hsel
    have h0 := (selectedBackends_eq_nil (configOf cfg) ws).2 hsel'
    simp only [h0, levelLoop] at heq
    rw [heq]
    refine ⟨⟨_, _, rfl⟩, ?_, fun _ => ⟨_, rfl⟩, fun _ => rfl⟩
    simp [hsel']

/-- Witness of C9: stdout selected with a level name the parser rejects. -/
theorem C9_witness :
    WellTyped (configMap true false "LOUD" "web") ∧
    NewLogger sampleEnv (configMap true false "LOUD" "web") [] {}
      = .ok ((none, some "logger: invalid log level"), {}) ∧
    ((∃ e, NewLogger sampleEnv (configMap true false "LOUD" "web") [] {}
        = .ok ((none, some e), {})) ↔
      (selectsBackend (configOf (configMap true false "LOUD" "web")) [] = true ∧
        ∃ e, sampleEnv.LogLevel (configOf (configMap true false "LOUD" "web")).Level
          = .error e)) := by
  have hw : WellTyped (configMap true false "LOUD" "web") := by
    simp [WellTyped, configMap, GoMap.set, GoMap.empty, isBoolOrAbsent, isStringOrAbsent]
  exact ⟨hw, by rfl,
    ((C9_NewLogger_checks_the_level_per_backend sampleEnv (configMap true false "LOUD" "web")
      [] {}).1 hw (fun _ => rfl)).2.1⟩

/-- Counterexample to C9 as stated: the map `{"prefix": 5}` selects no backend, and
`NewLogger` neither returns a logger nor an error on it: the type assertion on the prefix
panics. -/
theorem C9_counterexample :
    boolField ((GoMap.empty.set "prefix" (.int 5)) "stdout") = false ∧
    boolField ((GoMap.empty.set "prefix" (.int 5)) "syslog") = false ∧
    NewLogger sampleEnv (GoMap.empty.set "prefix" (.int 5)) [] {}
      = .error (.typeAssertion "prefix") ∧
    ¬ ∃ r w', NewLogger sampleEnv (GoMap.empty.set "prefix" (.int 5)) [] {} = .ok (r, w') := by
  have h : NewLogger sampleEnv (GoMap.empty.set "prefix" (.int 5)) [] {}
      = .error (.typeAssertion "prefix") := by rfl
  refine ⟨by rfl, by rfl, h, ?_⟩
  rintro ⟨r, w', hr⟩
  rw [h] at hr
  exact absurd hr (by simp)

/-! ## manager.go -/

/-- C10: for every path, `CreateManager` returns a non-nil `LogManager` whose logger is the
default logger with prefix "LOG-MANAGER". `readConfig` fails exactly when the path cannot
be stat'ed, is a directory, cannot be opened or read, or is rejected by the YAML decoder;
then the returned manager is exactly `Stdout = true`, `Syslog = false`, `Level = "DEBUG"`
with an empty `Prefixes` map (and that logger), after one error line was printed.
Otherwise the decoded manager is returned with only its logger field changed, and the
world is untouched. -/
theorem C10_CreateManager_always_returns_a_manager (env : Env) (configPath : String)
    (w : World) :
    ∃ (m : LogManager) (w' : World),
      CreateManager env configPath w = .ok (some m, w') ∧
      m.logger = some (.ofDefault { pfx := "LOG-MANAGER" }) ∧
      (((readConfig env configPath).2 ≠ none) ↔
        ((∃ e, env.Stat configPath = .error e) ∨
         env.Stat configPath = .ok { IsDir := true } ∨
         (∃ e, env.OpenFile configPath = .error e) ∨
         (∃ file, env.OpenFile configPath = .ok file ∧
            ((∃ e, env.ReadAll file = .error e) ∨
             ∃ bytes e, env.ReadAll file = .ok bytes ∧ env.Unmarshal bytes {} = .error e)))) ∧
      (∀ e, (readConfig env configPath).2 = some e →
        m.Stdout = true ∧ m.Syslog = false ∧ m.Level = "DEBUG" ∧ m.Prefixes = (fun _ => none) ∧
        w'.backends = w.backends ∧
        w'.events = w.events ++
          [.println [.str (env.ToDatetimeString w.clock ++ " [" ++ "LOG-MANAGER" ++ "]\t"),
            .str "ERROR",
            .str " ", .str "Initialize log manager failed with error:", .err e,
            .str "use default logger"]]) ∧
      ((readConfig env configPath).2 = none →
        ∃ file bytes parsed,
          env.Stat configPath = .ok { IsDir := false } ∧ env.OpenFile configPath = .ok file ∧
          env.ReadAll file = .ok bytes ∧ env.Unmarshal bytes {} = .ok parsed ∧
          readConfig env configPath = (some parsed, none) ∧
          m = { parsed with logger := some (.ofDefault { pfx := "LOG-MANAGER" }) } ∧
          w' = w) := by
  unfold CreateManager readConfig
  cases hs : env.Stat configPath with
  | error e =>
    simp only [Logger.Error, CreateDefaultLogger]
    refine ⟨_, _, rfl, rfl, ?_⟩
    simp [defaultLogger.Error, defaultLogger.print, defaultManager]
  | ok fi =>
    obtain ⟨isDir⟩ := fi
    cases isDir with
    | true =>
      simp only [Logger.Error, CreateDefaultLogger, if_true]
      refine ⟨_, _, rfl, rfl, ?_⟩
      simp [defaultLogger.Error, defaultLogger.print, defaultManager]
    | false =>
      cases ho : env.OpenFile configPath with
      | error e =>
        simp only [Logger.Error, CreateDefaultLogger]
        refine ⟨_, _, rfl, rfl, ?_⟩
        simp [defaultLogger.Error, defaultLogger.print, defaultManager]
      | ok file =>
        cases hr : env.ReadAll file with
        | error e =>
          simp only [Logger.Error, CreateDefaultLogger, Bool.false_eq_true, if_false, hr]
          refine ⟨_, _, rfl, rfl, ?_⟩
          simp [hr, defaultLogger.Error, defaultLogger.print, defaultManager]
        | ok bytes =>
          cases hu : env.Unmarshal bytes {} with
          | error e =>
            simp only [Logger.Error, CreateDefaultLogger, hr, hu, Bool.false_eq_true, if_false]
            refine ⟨_, _, rfl, rfl, ?_⟩
            simp [hr, hu, defaultLogger.Error, defaultLogger.print, defaultManager]
          | ok parsed =>
            simp only [CreateDefaultLogger, hr, hu, Bool.false_eq_true, if_false]
            refine ⟨_, _, rfl, rfl, ?_⟩
            simp [hr, hu]

/-! ## `InitializeComponents` -/

theorem setLoggerCalls_append (a b : List Event) :
    setLoggerCalls (a ++ b) = setLoggerCalls a ++ setLoggerCalls b := by
  induction a with
  | nil => rfl
  | cons e a ih => cases e <;> simp [setLoggerCalls, ih]

/-- The function `NewLoggerWithConfig` never panics, returns the pair `constructed` names
whatever the world, and adds no event; on an error it leaves the backends as they were,
and otherwise it installs the backends its arguments select, leveled as the level name
parses. -/
theorem NewLoggerWithConfig_returns (env : Env) (stdout syslog : Bool) (level pfx : String)
    (w : World) :
    ∃ r w', NewLoggerWithConfig env stdout syslog level pfx [] w = .ok (r, w') ∧
      constructed env stdout syslog level pfx = .ok r ∧
      w'.events = w.events ∧ w'.clock = w.clock ∧
      (r.2 ≠ none → w'.backends = w.backends) ∧
      (r.2 = none → ∃ lvl,
        w'.backends =
          (selectedBackends { Level := level, StdOut := stdout, Syslog := syslog,
                              Prefix := pfx } []).map (installed (moduleNameOf env pfx) lvl) ∧
        (selectedBackends { Level := level, StdOut := stdout, Syslog := syslog,
                            Prefix := pfx } [] ≠ [] → env.LogLevel level = .ok lvl)) := by
  unfold constructed NewLoggerWithConfig
  rw [NewLogger_eq env _ _ (ConfigGetter_configMap stdout syslog level pfx) [] w,
    NewLogger_eq env _ _ (ConfigGetter_configMap stdout syslog level pfx) [] {}]
  cases hd : (if syslog then env.NewSyslogBackend pfx else none) with
  | some err =>
    simp only [hd]
    exact ⟨_, _, rfl, rfl, rfl, rfl, fun _ => rfl, fun h => by simp at h⟩
  | none =>
    simp only [hd]
    cases hl : env.LogLevel level with
    | ok lvl =>
      rw [levelLoop_ok env level _ lvl hl]
      exact ⟨_, _, rfl, rfl, rfl, rfl, fun h => by simp at h, fun _ => ⟨lvl, rfl, fun _ => rfl⟩⟩
    | error e =>
      by_cases hsel : selectedBackends
          { Level := level, StdOut := stdout, Syslog := syslog, Prefix := pfx } [] = []
      · simp only [hsel, levelLoop]
        exact ⟨_, _, rfl, rfl, rfl, rfl, fun h => by simp at h,
          fun _ => ⟨.DEBUG, rfl, fun hne => absurd rfl hne⟩⟩
      · rw [levelLoop_error env level _ e hl _ hsel]
        exact ⟨_, _, rfl, rfl, rfl, rfl, fun _ => rfl, fun h => by simp at h⟩

/-- A diagnostic call on a non-nil logger returns and adds one event, which is not a
`SetLogger` call; the backends stay as they were. -/
theorem Logger_Info_returns (env : Env) (l : Logger) (v : List Value) (w : World) :
    ∃ w' e, Logger.Info env (some l) v w = .ok w' ∧ w'.events = w.events ++ [e] ∧
      setLoggerCalls [e] = [] ∧ w'.backends = w.backends := by
  cases l with
  | ofInternal i => exact ⟨_, _, rfl, rfl, rfl, rfl⟩
  | ofDefault d => exact ⟨_, _, rfl, rfl, rfl, rfl⟩

theorem Logger_Warning_returns (env : Env) (l : Logger) (v : List Value) (w : World) :
    ∃ w' e, Logger.Warning env (some l) v w = .ok w' ∧ w'.events = w.events ++ [e] ∧
      setLoggerCalls [e] = [] ∧ w'.backends = w.backends := by
  cases l with
  | ofInternal i => exact ⟨_, _, rfl, rfl, rfl, rfl⟩
  | ofDefault d => exact ⟨_, _, rfl, rfl, rfl, rfl⟩

theorem Logger_Error_returns (env : Env) (l : Logger) (v : List Value) (w : World) :
    ∃ w' e, Logger.Error env (some l) v w = .ok w' ∧ w'.events = w.events ++ [e] ∧
      setLoggerCalls [e] = [] ∧ w'.backends = w.backends := by
  cases l with
  | ofInternal i => exact ⟨_, _, rfl, rfl, rfl, rfl⟩
  | ofDefault d => exact ⟨_, _, rfl, rfl, rfl, rfl⟩

theorem constructed_eq (env : Env) (stdout syslog : Bool) (level pfx : String) :
    constructed env stdout syslog level pfx =
      match (if syslog then env.NewSyslogBackend pfx else none) with
      | some err => .ok (none, some err)
      | none =>
        match levelLoop env level (moduleNameOf env pfx)
            (selectedBackends { Level := level, StdOut := stdout, Syslog := syslog,
                                Prefix := pfx } []) with
        | .error err => .ok (none, some err)
        | .ok _ => .ok (some (.ofInternal { logger := { Module := moduleNameOf env pfx } }),
                        none) := by
  unfold constructed NewLoggerWithConfig
  rw [NewLogger_eq env _ _ (ConfigGetter_configMap stdout syslog level pfx) [] {}]
  cases hd : (if syslog then env.NewSyslogBackend pfx else none) with
  | some err => rfl
  | none =>
    simp only
    cases hl : levelLoop env level (moduleNameOf env pfx)
        (selectedBackends { Level := level, StdOut := stdout, Syslog := syslog, Prefix := pfx }
          []) with
    | error err => rfl
    | ok bs => rfl

/-- The DEBUG construction always returns; it returns a logger when the library knows the
level name DEBUG. -/
theorem constructed_debug (env : Env) (pfx : String) :
    ∃ r, constructed env true false "DEBUG" pfx = .ok r ∧
      ((∃ lvl, env.LogLevel "DEBUG" = .ok lvl) →
        r = (some (.ofInternal { logger := { Module := moduleNameOf env pfx } }), none)) := by
  rw [constructed_eq]
  simp only [Bool.false_eq_true, if_false]
  cases hl : env.LogLevel "DEBUG" with
  | ok lvl =>
    rw [levelLoop_ok env "DEBUG" _ lvl hl]
    exact ⟨_, rfl, fun _ => rfl⟩
  | error e =>
    rw [levelLoop_error env "DEBUG" _ e hl _ (by simp [selectedBackends])]
    exact ⟨_, rfl, fun ⟨lvl, h⟩ => by simp at h⟩

/-- The last lines of the loop body, under a manager whose logger is set: the component
receives the DEBUG logger, and when the library knows the level name DEBUG the backends
are then the one stdout backend of the prefix at that level. -/
theorem useDefault_returns (env : Env) (m : LogManager) (lg : Logger)
    (hlog : m.logger = some lg) (c : LogComponent) (w : World) :
    ∃ w' new, useDefault env m c w = .ok w' ∧ w'.events = w.events ++ new ∧
      setLoggerCalls new = [(c, fallbackLogger env c.LogPrefix)] ∧
      ∀ lvl, env.LogLevel "DEBUG" = .ok lvl →
        w'.backends = [installed (moduleNameOf env c.LogPrefix) lvl
                        (.log .stdout c.LogPrefix 0)] := by
  unfold useDefault
  rw [hlog]
  obtain ⟨w1, e1, h1, he1, hs1, _⟩ := Logger_Warning_returns env lg
    [.str "Use default debug level log for component with prefix:", .str c.LogPrefix] w
  simp only [h1]
  obtain ⟨r, w2, h2, hc2, he2, _, _, hb2⟩ := NewLoggerWithConfig_returns env true false "DEBUG"
    c.LogPrefix w1
  obtain ⟨l, err⟩ := r
  simp only [h2]
  refine ⟨_, [e1, .setLogger c l m], rfl, ?_, ?_, ?_⟩
  · simp [SetLogger, he2, he1]
  · have : setLoggerCalls ([e1] ++ [Event.setLogger c l m])
        = [(c, fallbackLogger env c.LogPrefix)] := by
      rw [setLoggerCalls_append, hs1]
      simp [setLoggerCalls, fallbackLogger, hc2]
    simpa using this
  · intro lvl hlvl
    obtain ⟨r', hr', hrd⟩ := constructed_debug env c.LogPrefix
    have hr := hrd ⟨lvl, hlvl⟩
    rw [hc2] at hr'
    simp only [Except.ok.injEq] at hr'
    rw [hr] at hr'
    simp only [Prod.mk.injEq] at hr'
    obtain ⟨lvl', hb, hl'⟩ := hb2 hr'.2
    have hsel : selectedBackends
        { Level := "DEBUG", StdOut := true, Syslog := false, Prefix := c.LogPrefix } []
        = [Backend.log .stdout c.LogPrefix 0] := by simp [selectedBackends]
    rw [hsel] at hb hl'
    have := hl' (by simp)
    rw [hlvl] at this
    simp only [Except.ok.injEq] at this
    subst this
    simpa [SetLogger] using hb

/-- The loop body, under a manager whose logger is set, for a component whose prefix has
no nil entry: the component receives the logger `expectedLogger` names; when its entry
builds a logger without error the backends are then the ones the entry selects, and
otherwise they are the DEBUG fallback's. -/
theorem initializeComponent_returns (env : Env) (m : LogManager) (lg : Logger)
    (hlog : m.logger = some lg) (c : LogComponent) (hc : m.Prefixes c.LogPrefix ≠ some none)
    (w : World) :
    ∃ w' new, initializeComponent env m c w = .ok w' ∧ w'.events = w.events ++ new ∧
      setLoggerCalls new = [(c, expectedLogger env m c)] ∧
      (∀ (entry : logConfig) (l : Option Logger),
        m.Prefixes c.LogPrefix = some (some entry) →
        constructed env entry.Stdout entry.Syslog entry.Level c.LogPrefix = .ok (l, none) →
        ∃ lvl,
          w'.backends =
            (selectedBackends { Level := entry.Level, StdOut := entry.Stdout,
                                Syslog := entry.Syslog, Prefix := c.LogPrefix } []).map
              (installed (moduleNameOf env c.LogPrefix) lvl) ∧
          (selectedBackends { Level := entry.Level, StdOut := entry.Stdout,
                              Syslog := entry.Syslog, Prefix := c.LogPrefix } [] ≠ [] →
            env.LogLevel entry.Level = .ok lvl)) ∧
      ((m.Prefixes c.LogPrefix = none ∨
          ∃ (entry : logConfig) (l : Option Logger) (e : GoError),
            m.Prefixes c.LogPrefix = some (some entry) ∧
            constructed env entry.Stdout entry.Syslog entry.Level c.LogPrefix
              = .ok (l, some e)) →
        ∀ lvl, env.LogLevel "DEBUG" = .ok lvl →
          w'.backends = [installed (moduleNameOf env c.LogPrefix) lvl
                          (.log .stdout c.LogPrefix 0)]) := by
  unfold initializeComponent expectedLogger
  cases hp : m.Prefixes c.LogPrefix with
  | none =>
    obtain ⟨w', new, g1, g2, g3, g4⟩ := useDefault_returns env m lg hlog c w
    exact ⟨w', new, g1, g2, g3, fun entry l he => by simp at he, fun _ => g4⟩
  | some ptr =>
    cases ptr with
    | none => exact absurd hp hc
    | some config =>
      simp only
      obtain ⟨r, w1, h1, hc1, he1, _, hbe, hbo⟩ := NewLoggerWithConfig_returns env
        config.Stdout config.Syslog config.Level c.LogPrefix w
      obtain ⟨l, err⟩ := r
      simp only [h1, hc1, hlog]
      cases err with
      | none =>
        simp only
        obtain ⟨w2, e2, h2, he2, hs2, hb2⟩ := Logger_Info_returns env lg
          [.str "Set logger for prefix:", .str c.LogPrefix] w1
        simp only [h2]
        refine ⟨_, [e2, .setLogger c l m], rfl, ?_, ?_, ?_, ?_⟩
        · simp [SetLogger, he2, he1]
        · have : setLoggerCalls ([e2] ++ [Event.setLogger c l m]) = [(c, l)] := by
            rw [setLoggerCalls_append, hs2]
            simp [setLoggerCalls]
          simpa using this
        · intro entry l' he hcl
          simp only [Option.some.injEq] at he
          subst he
          obtain ⟨lvl, hb, hl⟩ := hbo rfl
          exact ⟨lvl, by simpa [SetLogger, hb2] using hb, hl⟩
        · rintro (h0 | ⟨entry, l', e, he, hcl⟩)
          · simp at h0
          · simp only [Option.some.injEq] at he
            subst he
            rw [hc1] at hcl
            simp at hcl
      | some e =>
        simp only
        obtain ⟨w2, e2, h2, he2, hs2, _⟩ := Logger_Error_returns env lg
          [.str "Initialize logger to component with prefix:", .str c.LogPrefix,
           .str "failed with error:", .err e] w1
        simp only [h2]
        obtain ⟨w3, new, h3, he3, hs3, hb3⟩ := useDefault_returns env m lg hlog c w2
        refine ⟨w3, e2 :: new, h3, ?_, ?_, ?_, fun _ => hb3⟩
        · simp [he3, he2, he1]
        · have : setLoggerCalls ([e2] ++ new) = [(c, fallbackLogger env c.LogPrefix)] := by
            rw [setLoggerCalls_append, hs2, hs3]
            rfl
          simpa using this
        · intro entry l' he hcl
          simp only [Option.some.injEq] at he
          subst he
          rw [hc1] at hcl
          simp at hcl

/-- The whole loop over non-nil components: it returns, and the `SetLogger` calls it makes
are one per component, in the order given, each with the logger `expectedLogger` names. -/
theorem InitializeComponents_returns (env : Env) (m : LogManager) (lg : Logger)
    (hlog : m.logger = some lg) (cs : List LogComponent)
    (hcs : ∀ c ∈ cs, m.Prefixes c.LogPrefix ≠ some none) (w : World) :
    ∃ w' new, InitializeComponents env m (cs.map some) w = .ok w' ∧
      w'.events = w.events ++ new ∧
      setLoggerCalls new = cs.map (fun c => (c, expectedLogger env m c)) := by
  induction cs generalizing w with
  | nil => exact ⟨w, [], rfl, by simp, rfl⟩
  | cons c cs ih =>
    obtain ⟨w1, new1, h1, he1, hs1, _⟩ := initializeComponent_returns env m lg hlog c
      (hcs c (List.mem_cons_self _ _)) w
    obtain ⟨w2, new2, h2, he2, hs2⟩ := ih (fun c' hc' => hcs c' (List.mem_cons_of_mem _ hc')) w1
    refine ⟨w2, new1 ++ new2, ?_, ?_, ?_⟩
    · simp [InitializeComponents, h1, h2]
    · simp [he2, he1]
    · rw [setLoggerCalls_append, hs1, hs2]
      rfl

/-- The loop is sequential: running it over a list is running it over a first part and
then over the rest from the world reached. -/
theorem InitializeComponents_append (env : Env) (m : LogManager)
    (a b : List (Option LogComponent)) (w w1 : World)
    (h : InitializeComponents env m a w = .ok w1) :
    InitializeComponents env m (a ++ b) w = InitializeComponents env m b w1 := by
  induction a generalizing w with
  | nil =>
    simp only [InitializeComponents, Except.ok.injEq] at h
    subst h
    rfl
  | cons x a ih =>
    cases x with
    | none => simp [InitializeComponents] at h
    | some c =>
      simp only [InitializeComponents, List.cons_append] at h ⊢
      cases hc : initializeComponent env m c w with
      | error e => simp [hc] at h
      | ok w0 =>
        simp only [hc] at h ⊢
        exact ih w0 h

/-- The world right after a component's turn: for every place `pre ++ c :: post` of a
component in the list, the loop over `pre ++ [c]` returns a world from which the loop
over `post` is the rest of the run, and in that world the backends are the ones built in
the component's turn. -/
theorem InitializeComponents_at (env : Env) (m : LogManager) (lg : Logger)
    (hlog : m.logger = some lg) (pre post : List LogComponent) (c : LogComponent)
    (hcs : ∀ c' ∈ pre ++ c :: post, m.Prefixes c'.LogPrefix ≠ some none) (w : World) :
    ∃ wc, InitializeComponents env m ((pre ++ [c]).map some) w = .ok wc ∧
      InitializeComponents env m ((pre ++ c :: post).map some) w
        = InitializeComponents env m (post.map some) wc ∧
      (∀ (entry : logConfig) (l : Option Logger),
        m.Prefixes c.LogPrefix = some (some entry) →
        constructed env entry.Stdout entry.Syslog entry.Level c.LogPrefix = .ok (l, none) →
        ∃ lvl,
          wc.backends =
            (selectedBackends { Level := entry.Level, StdOut := entry.Stdout,
                                Syslog := entry.Syslog, Prefix := c.LogPrefix } []).map
              (installed (moduleNameOf env c.LogPrefix) lvl) ∧
          (selectedBackends { Level := entry.Level, StdOut := entry.Stdout,
                              Syslog := entry.Syslog, Prefix := c.LogPrefix } [] ≠ [] →
            env.LogLevel entry.Level = .ok lvl)) ∧
      ((m.Prefixes c.LogPrefix = none ∨
          ∃ (entry : logConfig) (l : Option Logger) (e : GoError),
            m.Prefixes c.LogPrefix = some (some entry) ∧
            constructed env entry.Stdout entry.Syslog entry.Level c.LogPrefix
              = .ok (l, some e)) →
        ∀ lvl, env.LogLevel "DEBUG" = .ok lvl →
          wc.backends = [installed (moduleNameOf env c.LogPrefix) lvl
                          (.log .stdout c.LogPrefix 0)]) := by
  obtain ⟨w0, _, h0, _, _⟩ := InitializeComponents_returns env m lg hlog pre
    (fun c' hc' => hcs c' (List.mem_append_left _ hc')) w
  obtain ⟨wc, _, h1, _, _, hA, hB⟩ := initializeComponent_returns env m lg hlog c
    (hcs c (List.mem_append_right _ (List.mem_cons_self _ _))) w0
  have hone : InitializeComponents env m ([c].map some) w0 = .ok wc := by
    simp [InitializeComponents, h1]
  have hpc : InitializeComponents env m ((pre ++ [c]).map some) w = .ok wc := by
    rw [List.map_append, InitializeComponents_append env m _ _ w w0 h0, hone]
  refine ⟨wc, hpc, ?_, hA, hB⟩
  have : (pre ++ c :: post).map some = (pre ++ [c]).map some ++ post.map some := by
    simp
  rw [this, InitializeComponents_append env m _ _ w wc hpc]

/-- C8, as amended: for every manager whose logger is set and every list of non-nil
components none of whose prefixes has a nil entry in `Prefixes`, `InitializeComponents`
returns and calls `SetLogger` exactly once on each component, in the order the
components were passed, whether the component's prefix has an entry or none; and when
the entry's logger construction fails, the logger set is the fallback DEBUG one, what
`NewLoggerWithConfig(true, false, "DEBUG", prefix)` returns, and right after the
component's turn the process backends are the fallback's one stdout backend (the library
knowing the level name DEBUG). -/
theorem C8_InitializeComponents_sets_each_logger_once (env : Env) (m : LogManager)
    (cs : List LogComponent) (w : World) (hlog : m.logger ≠ none)
    (hnil : ∀ c ∈ cs, m.Prefixes c.LogPrefix ≠ some none) :
    ∃ (w' : World) (new : List Event),
      InitializeComponents env m (cs.map some) w = .ok w' ∧ w'.events = w.events ++ new ∧
      (setLoggerCalls new).map Prod.fst = cs ∧
      (∀ (c : LogComponent) (entry : logConfig) (l : Option Logger) (e : GoError),
        m.Prefixes c.LogPrefix = some (some entry) →
        constructed env entry.Stdout entry.Syslog entry.Level c.LogPrefix = .ok (l, some e) →
        ∀ call ∈ setLoggerCalls new, call.1 = c →
          ∃ r, constructed env true false "DEBUG" c.LogPrefix = .ok r ∧ call.2 = r.1 ∧
            ((∃ lvl, env.LogLevel "DEBUG" = .ok lvl) →
              r = (some (.ofInternal
                    { logger := { Module := moduleNameOf env c.LogPrefix } }), none))) ∧
      (∀ (pre post : List LogComponent) (c : LogComponent), cs = pre ++ c :: post →
        ∃ (wc : World) (newc : List Event),
          InitializeComponents env m ((pre ++ [c]).map some) w = .ok wc ∧
          InitializeComponents env m (cs.map some) w
            = InitializeComponents env m (post.map some) wc ∧
          wc.events = w.events ++ newc ∧
          (setLoggerCalls newc).map Prod.fst = pre ++ [c] ∧
          ∀ (entry : logConfig) (l : Option Logger) (e : GoError),
            m.Prefixes c.LogPrefix = some (some entry) →
            constructed env entry.Stdout entry.Syslog entry.Level c.LogPrefix
              = .ok (l, some e) →
            ∀ lvl, env.LogLevel "DEBUG" = .ok lvl →
              wc.backends = [installed (moduleNameOf env c.LogPrefix) lvl
                              (.log .stdout c.LogPrefix 0)]) := by
  obtain ⟨lg, hl⟩ : ∃ lg, m.logger = some lg := by
    cases h : m.logger with
    | none => exact absurd h hlog
    | some lg => exact ⟨lg, rfl⟩
  obtain ⟨w', new, h1, h2, h3⟩ := InitializeComponents_returns env m lg hl cs hnil w
  refine ⟨w', new, h1, h2, ?_, ?_, ?_⟩
  · rw [h3, List.map_map]
    exact List.map_id _
  · intro c entry l e he hc call hcall hcc
    rw [h3, List.mem_map] at hcall
    obtain ⟨c', _, rfl⟩ := hcall
    simp only at hcc
    subst hcc
    obtain ⟨r, hr, hrd⟩ := constructed_debug env c'.LogPrefix
    refine ⟨r, hr, ?_, hrd⟩
    simp [expectedLogger, he, hc, fallbackLogger, hr]
  · intro pre post c hsplit
    subst hsplit
    obtain ⟨wc, g1, g2, _, gB⟩ := InitializeComponents_at env m lg hl pre post c hnil w
    obtain ⟨wc', newc, k1, k2, k3⟩ := InitializeComponents_returns env m lg hl (pre ++ [c])
      (fun c' hc' => hnil c' (by
        rcases List.mem_append.mp hc' with hp | hp
        · exact List.mem_append_left _ hp
        · rw [List.mem_singleton] at hp
          subst hp
          exact List.mem_append_right _ (List.mem_cons_self _ _))) w
    rw [g1] at k1
    simp only [Except.ok.injEq] at k1
    subst k1
    refine ⟨wc, newc, g1, g2, k2, ?_, ?_⟩
    · rw [k3, List.map_map]
      exact List.map_id _
    · intro entry l e he hc
      exact gB (Or.inr ⟨entry, l, e, he, hc⟩)

/-- Witness of C8: a manager whose entry for "web" names a level the parser rejects, with
a component of that prefix and one of an unknown prefix; right after the turn of "web"
the backends are the fallback's stdout backend at DEBUG. -/
theorem C8_witness :
    (∃ (w' : World) (new : List Event),
      InitializeComponents sampleEnv
        { sampleManager with
          Prefixes := fun k =>
            if k = "web" then some (some { Stdout := true, Syslog := false, Level := "LOUD" })
            else none }
        [some { id := 0, LogPrefix := "web" }, some { id := 1, LogPrefix := "api" }] {}
          = .ok w' ∧
      w'.events = new ∧
      (setLoggerCalls new).map Prod.fst
        = [{ id := 0, LogPrefix := "web" }, { id := 1, LogPrefix := "api" }]) ∧
    (∃ wc : World,
      InitializeComponents sampleEnv
        { sampleManager with
          Prefixes := fun k =>
            if k = "web" then some (some { Stdout := true, Syslog := false, Level := "LOUD" })
            else none }
        [some { id := 0, LogPrefix := "web" }] {} = .ok wc ∧
      wc.backends = [installed "web" .DEBUG (.log .stdout "web" 0)]) := by
  obtain ⟨w', new, g1, g2, g3, _, g5⟩ :=
    C8_InitializeComponents_sets_each_logger_once sampleEnv
      { sampleManager with
        Prefixes := fun k =>
          if k = "web" then some (some { Stdout := true, Syslog := false, Level := "LOUD" })
          else none }
      [{ id := 0, LogPrefix := "web" }, { id := 1, LogPrefix := "api" }] {}
      (by simp [sampleManager])
      (by
        intro c hc
        simp only [List.mem_cons, List.mem_singleton, List.not_mem_nil, or_false] at hc
        rcases hc with rfl | rfl <;> simp)
  refine ⟨⟨w', new, g1, by simpa using g2, g3⟩, ?_⟩
  obtain ⟨wc, _, k1, _, _, _, kB⟩ := g5 [] [{ id := 1, LogPrefix := "api" }]
    { id := 0, LogPrefix := "web" } rfl
  exact ⟨wc, k1, by
    rw [kB { Stdout := true, Syslog := false, Level := "LOUD" } none
      "logger: invalid log level" (by rfl) (by rfl) .DEBUG (by rfl)]
    rfl⟩

/-- Counterexample to C8 as stated. The manager `CreateManager` returns for the sample
file has a nil entry for "db": for a component of that prefix the run panics on the
entry's fields and `SetLogger` is never called. With the manager's logger unset, the run
panics on the first diagnostic line, again before `SetLogger`. And a nil component
panics on its `LogPrefix()` call: in the list "web", nil, "api" the run stops after the
one `SetLogger` call on "web". -/
theorem C8_counterexample :
    (∃ w', CreateManager sampleEnv "log.yaml" {} = .ok (some sampleManager, w')) ∧
    sampleManager.Prefixes "db" = some none ∧
    InitializeComponents sampleEnv sampleManager [some { id := 2, LogPrefix := "db" }] {}
      = .error .nilDereference ∧
    InitializeComponents sampleEnv { sampleManager with logger := none }
        [some { id := 0, LogPrefix := "web" }] {}
      = .error .nilDereference ∧
    (∃ w1, InitializeComponents sampleEnv sampleManager
        [some { id := 0, LogPrefix := "web" }] {} = .ok w1 ∧
      (setLoggerCalls w1.events).map Prod.fst = [{ id := 0, LogPrefix := "web" }] ∧
      InitializeComponents sampleEnv sampleManager [none, some { id := 1, LogPrefix := "api" }]
        w1 = .error .nilDereference) ∧
    InitializeComponents sampleEnv sampleManager
        [some { id := 0, LogPrefix := "web" }, none, some { id := 1, LogPrefix := "api" }] {}
      = .error .nilDereference :=
  ⟨⟨_, by rfl⟩, by rfl, by rfl, by rfl, ⟨_, by rfl, by rfl, by rfl⟩, by rfl⟩

end logs

/-! # Theorems: the work queue -/

namespace workqueue

theorem New_accounted (workerCount bufferCapacity : Int) (q : WorkQueue)
    (h : New workerCount bufferCapacity = .ok q) : Accounted q ∧ q.state = .Open := by
  unfold New at h
  by_cases hb : workerCount < 1 ∨ bufferCapacity < 0
  · simp [hb] at h
  · simp only [hb, if_false, Except.ok.injEq] at h
    subst h
    refine ⟨⟨?_, ?_, ?_⟩, rfl⟩
    · intro id
      simp [heldIds, resultIds]
    · simp only
      omega
    · intro hc
      exact ⟨rfl, rfl⟩

theorem ite_lt_succ (n id : Nat) :
    (if id < n + 1 then 1 else 0) = (if id < n then 1 else 0) + (if n = id then 1 else 0) := by
  split_ifs <;> omega

theorem Submit_accounted (q : WorkQueue) (work : Work) (now : Nat) (deadlinePassed : Bool)
    (h : Accounted q) : Accounted (Submit q work now deadlinePassed).2 := by
  obtain ⟨h1, h2, h3⟩ := h
  unfold Submit
  cases hs : q.state with
  | Draining => exact ⟨h1, h2, h3⟩
  | Closed => exact ⟨h1, h2, h3⟩
  | Open =>
    simp only
    split
    · refine ⟨?_, h2, ?_⟩
      · intro id
        have := h1 id
        rw [ite_lt_succ]
        simp only [heldIds, resultIds, List.map_append, List.count_append, List.map_cons,
          List.map_nil, List.count_cons, List.count_nil, beq_iff_eq] at this ⊢
        omega
      · intro hc
        simp [hs] at hc
    · split
      · refine ⟨?_, h2, ?_⟩
        · intro id
          have := h1 id
          rw [ite_lt_succ]
          simp only [heldIds, resultIds, List.map_append, List.count_append, List.map_cons,
            List.map_nil, List.count_cons, List.count_nil, beq_iff_eq] at this ⊢
          omega
        · intro hc
          simp [hs] at hc
      · split <;> exact ⟨h1, h2, h3⟩

theorem workerTake_accounted (q : WorkQueue) (h : Accounted q) : Accounted (workerTake q) := by
  obtain ⟨h1, h2, h3⟩ := h
  unfold workerTake
  cases hp : q.pending with
  | nil => exact ⟨h1, h2, h3⟩
  | cons item rest =>
    simp only
    split
    · refine ⟨?_, h2, ?_⟩
      · intro id
        have := h1 id
        simp only [heldIds, resultIds, hp, List.map_append, List.count_append, List.map_cons,
          List.map_nil, List.count_cons, List.count_nil, beq_iff_eq] at this ⊢
        omega
      · intro hc
        have := (h3 hc).1
        rw [hp] at this
        exact absurd this (by simp)
    · exact ⟨h1, h2, h3⟩

theorem workerFinish_accounted (q : WorkQueue) (seq : Nat) (h : Accounted q) :
    Accounted (workerFinish q seq) := by
  obtain ⟨h1, h2, h3⟩ := h
  unfold workerFinish
  cases hf : q.inFlight.find? (fun item => decide (item.seq = seq)) with
  | none => exact ⟨h1, h2, h3⟩
  | some item =>
    have hmem : item ∈ q.inFlight := List.mem_of_find?_eq_some hf
    have hperm := ((List.perm_cons_erase hmem).map (fun item => item.seq))
    refine ⟨?_, h2, ?_⟩
    · intro id
      have := h1 id
      have hc := hperm.count_eq id
      simp only [heldIds, resultIds, List.map_append, List.count_append, List.map_cons,
        List.map_nil, List.count_cons, List.count_nil, beq_iff_eq] at this hc ⊢
      omega
    · intro hc
      have := (h3 hc).2
      rw [this] at hmem
      exact absurd hmem (by simp)

theorem closeBegin_accounted (q : WorkQueue) (h : Accounted q) : Accounted (closeBegin q) := by
  obtain ⟨h1, h2, h3⟩ := h
  unfold closeBegin
  cases hs : q.state with
  | Open => exact ⟨h1, h2, fun hc => by simp at hc⟩
  | Draining => exact ⟨h1, h2, h3⟩
  | Closed => exact ⟨h1, h2, h3⟩

theorem drainComplete_accounted (q : WorkQueue) (h : Accounted q) :
    Accounted (drainComplete q) := by
  obtain ⟨h1, h2, h3⟩ := h
  unfold drainComplete
  split
  · rename_i hp hi
    exact ⟨by simpa [heldIds, resultIds, hp, hi] using h1, h2, fun _ => ⟨hp, hi⟩⟩
  · exact ⟨h1, h2, h3⟩

theorem CloseNow_accounted (q : WorkQueue) (h : Accounted q) : Accounted (CloseNow q) := by
  obtain ⟨h1, h2, h3⟩ := h
  unfold CloseNow
  split
  · exact ⟨h1, h2, h3⟩
  · refine ⟨?_, h2, fun _ => ⟨rfl, rfl⟩⟩
    intro id
    have := h1 id
    simp only [heldIds, resultIds, List.map_append, List.count_append, List.map_map,
      List.map_nil, List.count_nil, Function.comp_def] at this ⊢
    omega

theorem step_accounted (q : WorkQueue) (a : Action) (h : Accounted q) :
    Accounted (step q a) := by
  cases a with
  | submit work now deadlinePassed => exact Submit_accounted q work now deadlinePassed h
  | workerTake => exact workerTake_accounted q h
  | workerFinish seq => exact workerFinish_accounted q seq h
  | close => exact closeBegin_accounted q h
  | drainComplete => exact drainComplete_accounted q h
  | closeNow => exact CloseNow_accounted q h

theorem run_accounted (actions : List Action) (q : WorkQueue) (h : Accounted q) :
    Accounted (run q actions) := by
  induction actions generalizing q with
  | nil => exact h
  | cons a rest ih => exact ih (step q a) (step_accounted q a h)

/-- No move withdraws a delivered result or gives out an id twice: the results only grow
at the end and the next sequence id never decreases. -/
theorem step_results_prefix (q : WorkQueue) (a : Action) :
    q.results <+: (step q a).results := by
  cases a with
  | submit work now deadlinePassed =>
    simp only [step, Submit]
    cases q.state <;> simp only <;> (repeat' split) <;> exact List.prefix_refl _
  | workerTake =>
    simp only [step, workerTake]
    (repeat' split) <;> exact List.prefix_refl _
  | workerFinish seq =>
    simp only [step, workerFinish]
    split
    · exact List.prefix_refl _
    · exact List.prefix_append _ _
  | close =>
    simp only [step, closeBegin]
    split <;> exact List.prefix_refl _
  | drainComplete =>
    simp only [step, drainComplete]
    split <;> exact List.prefix_refl _
  | closeNow =>
    simp only [step, CloseNow]
    split
    · exact List.prefix_refl _
    · simp only [List.append_assoc]
      exact List.prefix_append _ _

/-- The workers' drain: with enough rounds a queue that no longer accepts submissions ends
closed and empty, having only added results. -/
theorem drainLoop_closes (fuel : Nat) (q : WorkQueue) (h : Accounted q)
    (hs : q.state ≠ .Open) (hf : 2 * q.pending.length + q.inFlight.length < fuel) :
    Accounted (drainLoop fuel q) ∧ (drainLoop fuel q).state = .Closed ∧
    (drainLoop fuel q).pending = [] ∧ (drainLoop fuel q).inFlight = [] ∧
    (drainLoop fuel q).nextSeq = q.nextSeq ∧ q.results <+: (drainLoop fuel q).results := by
  induction fuel generalizing q with
  | zero => omega
  | succ fuel ih =>
    unfold drainLoop
    cases hi : q.inFlight with
    | cons item rest =>
      simp only
      have hfind : q.inFlight.find? (fun it => decide (it.seq = item.seq)) = some item := by
        rw [hi]
        simp
      have hq1 : workerFinish q item.seq =
          { q with inFlight := rest, results := q.results ++ [(item.seq, execute item)] } := by
        simp only [workerFinish, hfind]
        rw [hi, List.erase_cons_head]
      have hacc := workerFinish_accounted q item.seq h
      rw [hq1] at hacc ⊢
      have := ih _ hacc (by simpa using hs) (by simp only; rw [hi] at hf; simp at hf; omega)
      obtain ⟨a1, a2, a3, a4, a5, a6⟩ := this
      refine ⟨a1, a2, a3, a4, a5, ?_⟩
      exact List.IsPrefix.trans (List.prefix_append _ _) a6
    | nil =>
      simp only
      cases hp : q.pending with
      | cons item rest =>
        simp only
        have hq1 : workerTake q = { q with pending := rest, inFlight := [item] } := by
          simp only [workerTake, hp, hi, List.length_nil, List.nil_append]
          have : 0 < q.workerCount := h.2.1
          simp [this]
        have hacc := workerTake_accounted q h
        rw [hq1] at hacc ⊢
        have := ih _ hacc (by simpa using hs)
          (by simp only [List.length_singleton]; rw [hp] at hf; simp at hf; omega)
        exact this
      | nil =>
        simp only
        have hacc := drainComplete_accounted q h
        refine ⟨hacc, ?_, ?_, ?_, ?_, ?_⟩
        · unfold drainComplete
          cases hst : q.state with
          | Open => exact absurd hst hs
          | Draining => simp [hp, hi]
          | Closed => simp [hst]
        · unfold drainComplete
          split <;> simp [hp]
        · unfold drainComplete
          split <;> simp [hi]
        · unfold drainComplete
          split <;> rfl
        · unfold drainComplete
          split <;> exact List.prefix_refl _

theorem closeBegin_frame (q : WorkQueue) :
    (closeBegin q).state ≠ .Open ∧ (closeBegin q).pending = q.pending ∧
    (closeBegin q).inFlight = q.inFlight ∧ (closeBegin q).nextSeq = q.nextSeq ∧
    (closeBegin q).results = q.results := by
  unfold closeBegin
  cases hs : q.state <;> simp [hs]

/-- The call `Close()` on a queue whose books balance: it ends closed and empty, keeps the
results delivered before it, and every id given out has exactly one result. -/
theorem Close_delivers (q : WorkQueue) (h : Accounted q) :
    (Close q).state = .Closed ∧ Len (Close q) = 0 ∧ (Close q).inFlight = [] ∧
    (Close q).nextSeq = q.nextSeq ∧ q.results <+: (Close q).results ∧
    ∀ id, id < q.nextSeq → (resultIds (Close q)).count id = 1 := by
  obtain ⟨f1, f2, f3, f4, f5⟩ := closeBegin_frame q
  have hd := drainLoop_closes (2 * q.pending.length + q.inFlight.length + 1) (closeBegin q)
    (closeBegin_accounted q h) f1 (by rw [f2, f3]; omega)
  obtain ⟨a1, a2, a3, a4, a5, a6⟩ := hd
  unfold Close Len
  refine ⟨a2, by rw [a3]; rfl, a4, by rw [a5, f4], by rw [← f5]; exact a6, ?_⟩
  intro id hid
  have := a1.1 id
  rw [a5, f4] at this
  simpa [heldIds, a3, a4, hid] using this

theorem step_stays_shut (q : WorkQueue) (a : Action) (h : q.state ≠ .Open) :
    (step q a).state ≠ .Open := by
  cases a with
  | submit work now deadlinePassed =>
    simp only [step, Submit]
    cases hs : q.state with
    | Open => exact absurd hs h
    | Draining => simp [hs]
    | Closed => simp [hs]
  | workerTake =>
    simp only [step, workerTake]
    (repeat' split) <;> exact h
  | workerFinish seq =>
    simp only [step, workerFinish]
    split <;> exact h
  | close => exact (closeBegin_frame q).1
  | drainComplete =>
    simp only [step, drainComplete]
    split
    · simp
    · exact h
  | closeNow =>
    simp only [step, CloseNow]
    split
    · exact h
    · simp

theorem run_stays_shut (actions : List Action) (q : WorkQueue) (h : q.state ≠ .Open) :
    (run q actions).state ≠ .Open := by
  induction actions generalizing q with
  | nil => exact h
  | cons a rest ih => exact ih (step q a) (step_stays_shut q a h)

/-- Counterexample to C5 as stated: the one call of `workqueue.New` in the smoke test passes
no argument, so what the test exercises is not a call with a worker count and a buffer
capacity. -/
theorem C5_counterexample :
    go_common.TestAll.lookup "workqueue.New" = some [] ∧
    ¬ ∃ workerCount bufferCapacity,
        go_common.TestAll.lookup "workqueue.New" = some [workerCount, bufferCapacity] := by
  have h : go_common.TestAll.lookup "workqueue.New" = some [] := by rfl
  refine ⟨h, ?_⟩
  rintro ⟨a, b, hab⟩
  rw [h] at hab
  exact absurd hab (by simp)

/-- C5, as amended: the constructor the specification describes, `New(workerCount,
bufferCapacity)`, fails with `InvalidConfiguration` for every argument pair with
`workerCount < 1` or `bufferCapacity < 0`, and for every other pair returns an open, empty
queue of those sizes; the smoke test calls `workqueue.New` with no arguments. -/
theorem C5_New_fails_fast_on_invalid_sizes (workerCount bufferCapacity : Int) :
    ((workerCount < 1 ∨ bufferCapacity < 0) →
      New workerCount bufferCapacity = .error .InvalidConfiguration) ∧
    ((1 ≤ workerCount ∧ 0 ≤ bufferCapacity) →
      ∃ q, New workerCount bufferCapacity = .ok q ∧ q.state = .Open ∧
        (q.workerCount : Int) = workerCount ∧ (q.bufferCapacity : Int) = bufferCapacity ∧
        q.pending = [] ∧ q.inFlight = [] ∧ q.results = [] ∧ q.nextSeq = 0) ∧
    go_common.TestAll.lookup "workqueue.New" = some [] := by
  refine ⟨?_, ?_, by rfl⟩
  · intro h
    simp [New, h]
  · rintro ⟨h1, h2⟩
    have h : ¬ (workerCount < 1 ∨ bufferCapacity < 0) := by omega
    refine ⟨{ workerCount := workerCount.toNat, bufferCapacity := bufferCapacity.toNat,
              state := .Open, pending := [], inFlight := [], results := [], nextSeq := 0 },
      by simp only [New, h, if_false], rfl, ?_, ?_, rfl, rfl, rfl, rfl⟩
    · simp only
      omega
    · simp only
      omega

/-- Witness of C5: no worker is refused, a negative capacity is refused, `New(2, 0)` is
accepted. -/
theorem C5_witness :
    New 0 4 = .error .InvalidConfiguration ∧ New 3 (-1) = .error .InvalidConfiguration ∧
    ∃ q, New 2 0 = .ok q ∧ q.state = .Open :=
  ⟨(C5_New_fails_fast_on_invalid_sizes 0 4).1 (by decide),
   (C5_New_fails_fast_on_invalid_sizes 3 (-1)).1 (by decide),
   by
     obtain ⟨q, h1, h2, _⟩ := (C5_New_fails_fast_on_invalid_sizes 2 0).2.1 (by decide)
     exact ⟨q, h1, h2⟩⟩

/-- C6: in every queue reached from a successful `New` by any sequence of submissions,
worker moves and shutdown calls, an item is accepted only while the queue is `Open` and
gets a fresh sequence id; every id given out is either still held by the queue or has a
result, exactly once over both, so no accepted item is dropped and none has two results;
no move withdraws a result; and both `Close()` and `CloseNow()` end with exactly one
result for every id given out. -/
theorem C6_exactly_one_result_per_accepted_item (workerCount bufferCapacity : Int)
    (q0 : WorkQueue) (h : New workerCount bufferCapacity = .ok q0) (actions : List Action) :
    (∀ (work : Work) (now : Nat) (deadlinePassed : Bool) (seq : Nat) (q' : WorkQueue),
      Submit (run q0 actions) work now deadlinePassed = (.accepted seq, q') →
      (run q0 actions).state = .Open ∧ seq = (run q0 actions).nextSeq ∧
      q'.nextSeq = seq + 1 ∧ seq ∈ heldIds q') ∧
    (∀ id, id < (run q0 actions).nextSeq →
      (heldIds (run q0 actions) ++ resultIds (run q0 actions)).count id = 1) ∧
    (∀ id, (resultIds (run q0 actions)).count id ≤ 1) ∧
    (∀ id, id ∈ heldIds (run q0 actions) ++ resultIds (run q0 actions) →
      id < (run q0 actions).nextSeq) ∧
    (∀ a, (run q0 actions).results <+: (step (run q0 actions) a).results) ∧
    ((Close (run q0 actions)).state = .Closed ∧ Len (Close (run q0 actions)) = 0 ∧
      (Close (run q0 actions)).inFlight = [] ∧
      (run q0 actions).results <+: (Close (run q0 actions)).results ∧
      ∀ id, id < (run q0 actions).nextSeq →
        (resultIds (Close (run q0 actions))).count id = 1) ∧
    (∀ id, id < (run q0 actions).nextSeq →
      (resultIds (CloseNow (run q0 actions))).count id = 1) := by
  have hacc : Accounted (run q0 actions) :=
    run_accounted actions q0 (New_accounted workerCount bufferCapacity q0 h).1
  generalize run q0 actions = q at hacc ⊢
  refine ⟨?_, ?_, ?_, ?_, fun a => step_results_prefix q a, ?_, ?_⟩
  · intro work now deadlinePassed seq q' hsub
    unfold Submit at hsub
    cases hs : q.state with
    | Draining => simp [hs] at hsub
    | Closed => simp [hs] at hsub
    | Open =>
      simp only [hs] at hsub
      split at hsub
      · simp only [Prod.mk.injEq, SubmitOutcome.accepted.injEq] at hsub
        obtain ⟨h1, h2⟩ := hsub
        subst h2
        exact ⟨rfl, h1.symm, by simp [h1], by simp [heldIds, h1]⟩
      · split at hsub
        · simp only [Prod.mk.injEq, SubmitOutcome.accepted.injEq] at hsub
          obtain ⟨h1, h2⟩ := hsub
          subst h2
          exact ⟨rfl, h1.symm, by simp [h1], by simp [heldIds, h1]⟩
        · split at hsub <;> simp at hsub
  · intro id hid
    simpa [hid] using hacc.1 id
  · intro id
    have := hacc.1 id
    simp only [List.count_append] at this
    split at this <;> omega
  · intro id hid
    by_contra hlt
    have := hacc.1 id
    simp only [hlt, if_false] at this
    exact absurd hid (List.count_eq_zero.mp this)
  · obtain ⟨c1, c2, c3, _, c5, c6⟩ := Close_delivers q hacc
    exact ⟨c1, c2, c3, c5, c6⟩
  · intro id hid
    have hn := CloseNow_accounted q hacc
    have := hn.1 id
    have hseq : (CloseNow q).nextSeq = q.nextSeq := by
      unfold CloseNow
      split <;> rfl
    have hheld : heldIds (CloseNow q) = [] := by
      unfold CloseNow
      split
      · rename_i hc
        simp [heldIds, (hacc.2.2 hc).1, (hacc.2.2 hc).2]
      · rfl
    rw [hseq, hheld] at this
    simpa [hid] using this

/-- Witness of C6: `New(1, 2)`, two submissions (one work function faults), the worker
taking the first item, then `Close()`: both ids have exactly one result. -/
theorem C6_witness :
    New 1 2 = .ok { workerCount := 1, bufferCapacity := 2, state := .Open, pending := [],
                    inFlight := [], results := [], nextSeq := 0 } ∧
    (Close (run { workerCount := 1, bufferCapacity := 2, state := .Open, pending := [],
                  inFlight := [], results := [], nextSeq := 0 }
        [.submit { outcome := some "a", honoursCancel := false } 10 false,
         .submit { outcome := none, honoursCancel := true } 11 false,
         .workerTake])).results
      = [(0, .Success "a"), (1, .Failure .WorkerPanic)] ∧
    ∀ id, id < (run { workerCount := 1, bufferCapacity := 2, state := .Open, pending := [],
                      inFlight := [], results := [], nextSeq := 0 }
        [.submit { outcome := some "a", honoursCancel := false } 10 false,
         .submit { outcome := none, honoursCancel := true } 11 false,
         .workerTake]).nextSeq →
      (resultIds (Close (run { workerCount := 1, bufferCapacity := 2, state := .Open,
                               pending := [], inFlight := [], results := [], nextSeq := 0 }
        [.submit { outcome := some "a", honoursCancel := false } 10 false,
         .submit { outcome := none, honoursCancel := true } 11 false,
         .workerTake]))).count id = 1 :=
  ⟨by rfl, by decide,
   (C6_exactly_one_result_per_accepted_item 1 2 _ (by rfl)
      [.submit { outcome := some "a", honoursCancel := false } 10 false,
       .submit { outcome := none, honoursCancel := true } 11 false,
       .workerTake]).2.2.2.2.2.1.2.2.2.2⟩

/-- C7: for every queue in state `Draining` or `Closed`, every `Submit` fails at once with
`QueueClosed`: the caller is not suspended, whatever the buffer holds and whether or not
a deadline was given, and the queue is returned unchanged. Such a queue never reopens:
after any further moves it is still `Draining` or `Closed`, so every later `Submit` fails
the same way. The queue is in such a state as soon as `Close()` has begun, and after
`CloseNow()`. -/
theorem C7_Submit_fails_once_closing (q : WorkQueue) (work : Work) (now : Nat)
    (deadlinePassed : Bool) (h : q.state = .Draining ∨ q.state = .Closed) :
    Submit q work now deadlinePassed = (.failed .QueueClosed, q) ∧
    (Submit q work now deadlinePassed).1 ≠ .suspended ∧
    (∀ (actions : List Action) (work' : Work) (now' : Nat) (deadlinePassed' : Bool),
      ((run q actions).state = .Draining ∨ (run q actions).state = .Closed) ∧
      Submit (run q actions) work' now' deadlinePassed'
        = (.failed .QueueClosed, run q actions)) ∧
    ∀ p : WorkQueue, ((closeBegin p).state = .Draining ∨ (closeBegin p).state = .Closed) ∧
      (CloseNow p).state = .Closed := by
  have key : ∀ (p : WorkQueue) (wk : Work) (n : Nat) (d : Bool), p.state ≠ .Open →
      (p.state = .Draining ∨ p.state = .Closed) ∧ Submit p wk n d = (.failed .QueueClosed, p) := by
    intro p wk n d hp
    unfold Submit
    cases hs : p.state with
    | Open => exact absurd hs hp
    | Draining => exact ⟨Or.inl rfl, rfl⟩
    | Closed => exact ⟨Or.inr rfl, rfl⟩
  have hq : q.state ≠ .Open := by
    rcases h with h | h <;> simp [h]
  refine ⟨(key q work now deadlinePassed hq).2, ?_, ?_, ?_⟩
  · rw [(key q work now deadlinePassed hq).2]
    simp
  · intro actions work' now' deadlinePassed'
    exact key _ work' now' deadlinePassed' (run_stays_shut actions q hq)
  · intro p
    constructor
    · have := (closeBegin_frame p).1
      cases hs : (closeBegin p).state with
      | Open => exact absurd hs this
      | Draining => exact Or.inl rfl
      | Closed => exact Or.inr rfl
    · unfold CloseNow
      split
      · assumption
      · rfl

/-- Witness of C7: a draining queue with a full buffer and a busy worker still answers at
once. -/
theorem C7_witness :
    Submit { workerCount := 1, bufferCapacity := 1, state := .Draining,
             pending := [{ seq := 1, work := { outcome := some "b", honoursCancel := false },
                           enqueuedAt := 5 }],
             inFlight := [{ seq := 0, work := { outcome := some "a", honoursCancel := false },
                            enqueuedAt := 4 }],
             results := [], nextSeq := 2 }
        { outcome := some "c", honoursCancel := false } 6 false
      = (.failed .QueueClosed,
         { workerCount := 1, bufferCapacity := 1, state := .Draining,
           pending := [{ seq := 1, work := { outcome := some "b", honoursCancel := false },
                         enqueuedAt := 5 }],
           inFlight := [{ seq := 0, work := { outcome := some "a", honoursCancel := false },
                          enqueuedAt := 4 }],
           results := [], nextSeq := 2 }) :=
  (C7_Submit_fails_once_closing _ _ 6 false (Or.inl rfl)).1

end workqueue
